import Mathlib

/-
  Verification development for the motion-to-viewport pipeline of the
  Sports-Motion-Detection-Viewport-Tracking repository.

  Shallow embedding conventions:
  * Python ints are modelled as ℤ; Python float arithmetic is modelled as
    exact arithmetic in ℚ.
  * Python `a // b` (floor division, always by 2 here) is modelled as `a / b`
    on ℤ, which is Euclidean division and agrees with floor division for the
    positive divisor 2.
  * Python `int(x)` (truncation toward zero) is modelled by `pyInt`.
  * Python code that can raise is modelled in the `Except PyErr` monad.
    `PyErr.zeroDivisionError` models an uncaught `ZeroDivisionError` and
    `PyErr.indexError` an out-of-range list subscript; `cvError` models the
    error raised by the underlying image library on mismatched shapes.  The
    constructors `invalidInput`, `invalidConfig` and `degenerateAggregation`
    correspond to the specification's error taxonomy; they exist so that
    claims about that taxonomy can be stated (the embedded code never
    produces them).
-/

/-- Truncation toward zero of a rational, the semantics of Python `int()`. -/
def pyInt (q : ℚ) : ℤ := if q < 0 then ⌈q⌉ else ⌊q⌋

/-- Python error values that the embedded code can raise, together with the
error names used by the specification's taxonomy. -/
inductive PyErr : Type
  | zeroDivisionError
  | indexError
  | cvError
  | invalidInput
  | invalidConfig
  | degenerateAggregation
  deriving DecidableEq

instance {ε α : Type} [DecidableEq ε] [DecidableEq α] : DecidableEq (Except ε α)
  | .ok a, .ok b => if h : a = b then isTrue (by rw [h]) else isFalse (by simp [h])
  | .ok _, .error _ => isFalse (by simp)
  | .error _, .ok _ => isFalse (by simp)
  | .error a, .error b => if h : a = b then isTrue (by rw [h]) else isFalse (by simp [h])

/-- An axis-aligned motion bounding box `(x, y, w, h)` in pixel coordinates. -/
structure Box where
  x : ℤ
  y : ℤ
  w : ℤ
  h : ℤ
  deriving DecidableEq

/-- A frame shape `(height, width)`, the result of `frame.shape[:2]`. -/
abbrev Shape := ℤ × ℤ

namespace viewport_tracker

/-- Embedding of `calculate_region_of_interest` from `src/viewport_tracker.py`.
With no motion boxes it returns the frame center `(width // 2, height // 2)`
with extent `(0, 0)`; otherwise it accumulates, in loop order, the total box
area and the area-weighted sums of the box centers `(x + w // 2, y + h // 2)`,
and divides.  A zero total area makes the Python division
`weighted_x_sum / total_area` raise `ZeroDivisionError`. -/
def calculate_region_of_interest (motion_boxes : List Box) (frame_shape : Shape) :
    Except PyErr (ℤ × ℤ × ℤ × ℤ) :=
  match motion_boxes with
  | [] => .ok (frame_shape.2 / 2, frame_shape.1 / 2, 0, 0)
  | _ :: _ =>
    let acc := motion_boxes.foldl
      (fun acc b =>
        let area := b.w * b.h
        let center_x := b.x + b.w / 2
        let center_y := b.y + b.h / 2
        (acc.1 + area, acc.2.1 + center_x * area, acc.2.2 + center_y * area))
      ((0 : ℤ), (0 : ℤ), (0 : ℤ))
    if acc.1 = 0 then .error .zeroDivisionError
    else
      .ok (pyInt ((acc.2.1 : ℚ) / (acc.1 : ℚ)), pyInt ((acc.2.2 : ℚ) / (acc.1 : ℚ)), 0, 0)

/-- The per-frame loop of the EMA `track_viewport` from
`src/viewport_tracker.py`: compute the frame's ROI, blend it with the previous
position by the exponential moving average, truncate to integers, clamp into
the frame, emit, and carry the clamped position to the next frame.  A motion
result list shorter than the frame list raises an `IndexError` at
`motion_results[i]`. -/
def emaGo (smoothing_factor : ℚ) (half_w half_h : ℤ) :
    List Shape → List (List Box) → ℤ → ℤ → Except PyErr (List (ℤ × ℤ))
  | [], _, _, _ => .ok []
  | _ :: _, [], _, _ => .error .indexError
  | f :: fs, m :: ms, prev_x, prev_y =>
    match calculate_region_of_interest m f with
    | .error e => .error e
    | .ok (cx, cy, _, _) =>
      let sx := pyInt (smoothing_factor * (cx : ℚ) + (1 - smoothing_factor) * (prev_x : ℚ))
      let sy := pyInt (smoothing_factor * (cy : ℚ) + (1 - smoothing_factor) * (prev_y : ℚ))
      let sx1 := max half_w (min (f.2 - half_w) sx)
      let sy1 := max half_h (min (f.1 - half_h) sy)
      match emaGo smoothing_factor half_w half_h fs ms sx1 sy1 with
      | .error e => .error e
      | .ok rest => .ok ((sx1, sy1) :: rest)

/-- Embedding of the EMA `track_viewport` from `src/viewport_tracker.py`.
An empty frame list returns `[]`; otherwise the previous position is
initialized to the center of the first frame and the per-frame loop runs.
`viewport_size` is `(width, height)`. -/
def track_viewport (frames : List Shape) (motion_results : List (List Box))
    (viewport_size : ℤ × ℤ) (smoothing_factor : ℚ) : Except PyErr (List (ℤ × ℤ)) :=
  match frames with
  | [] => .ok []
  | f0 :: _ =>
    emaGo smoothing_factor (viewport_size.1 / 2) (viewport_size.2 / 2)
      frames motion_results (f0.2 / 2) (f0.1 / 2)

end viewport_tracker

/-
  Fixed-size exact linear algebra over ℚ for the Kalman filter embedding
  (the filterpy `KalmanFilter(dim_x=4, dim_z=2)` used by
  `src/viewport_tracker_kalman.py`).  Matrices are functions on `Fin`
  indices; products are written as explicit 2- and 4-term dot products so
  that everything is executable.
-/

/-- A rational matrix with `m` rows and `n` columns. -/
abbrev Mat (m n : ℕ) := Fin m → Fin n → ℚ

/-- Four-component column vector written out by entries. -/
def vec4 (a b c d : ℚ) : Fin 4 → ℚ
  | 0 => a
  | 1 => b
  | 2 => c
  | 3 => d

/-- Two-component column vector written out by entries. -/
def vec2 (a b : ℚ) : Fin 2 → ℚ
  | 0 => a
  | 1 => b

/-- A 4-row matrix assembled from its rows. -/
def row4 {n : ℕ} (r0 r1 r2 r3 : Fin n → ℚ) : Mat 4 n
  | 0 => r0
  | 1 => r1
  | 2 => r2
  | 3 => r3

/-- A 2-row matrix assembled from its rows. -/
def row2 {n : ℕ} (r0 r1 : Fin n → ℚ) : Mat 2 n
  | 0 => r0
  | 1 => r1

/-- Product of a matrix with 4 columns and a matrix with 4 rows. -/
def mulX4 {m n : ℕ} (A : Mat m 4) (B : Mat 4 n) : Mat m n :=
  fun i j => A i 0 * B 0 j + A i 1 * B 1 j + A i 2 * B 2 j + A i 3 * B 3 j

/-- Product of a matrix with 2 columns and a matrix with 2 rows. -/
def mulX2 {m n : ℕ} (A : Mat m 2) (B : Mat 2 n) : Mat m n :=
  fun i j => A i 0 * B 0 j + A i 1 * B 1 j

/-- Matrix-vector product, inner dimension 4. -/
def mulV4 {m : ℕ} (A : Mat m 4) (v : Fin 4 → ℚ) : Fin m → ℚ :=
  fun i => A i 0 * v 0 + A i 1 * v 1 + A i 2 * v 2 + A i 3 * v 3

/-- Matrix-vector product, inner dimension 2. -/
def mulV2 {m : ℕ} (A : Mat m 2) (v : Fin 2 → ℚ) : Fin m → ℚ :=
  fun i => A i 0 * v 0 + A i 1 * v 1

/-- Entrywise sum of two matrices. -/
def matAdd {m n : ℕ} (A B : Mat m n) : Mat m n := fun i j => A i j + B i j

/-- Matrix transpose. -/
def matT {m n : ℕ} (A : Mat m n) : Mat n m := fun i j => A j i

/-- Inverse of a 2×2 matrix by the adjugate formula, as numpy computes it for
the innovation covariance. -/
def inv2 (S : Mat 2 2) : Mat 2 2 :=
  let d := S 0 0 * S 1 1 - S 0 1 * S 1 0
  row2 (vec2 (S 1 1 / d) (-(S 0 1) / d)) (vec2 (-(S 1 0) / d) (S 0 0 / d))

namespace viewport_tracker_kalman

/-- Embedding of `calculate_region_of_interest` from
`src/viewport_tracker_kalman.py`; the function body is identical to the one
in `src/viewport_tracker.py`. -/
def calculate_region_of_interest (motion_boxes : List Box) (frame_shape : Shape) :
    Except PyErr (ℤ × ℤ × ℤ × ℤ) :=
  match motion_boxes with
  | [] => .ok (frame_shape.2 / 2, frame_shape.1 / 2, 0, 0)
  | _ :: _ =>
    let acc := motion_boxes.foldl
      (fun acc b =>
        let area := b.w * b.h
        let center_x := b.x + b.w / 2
        let center_y := b.y + b.h / 2
        (acc.1 + area, acc.2.1 + center_x * area, acc.2.2 + center_y * area))
      ((0 : ℤ), (0 : ℤ), (0 : ℤ))
    if acc.1 = 0 then .error .zeroDivisionError
    else
      .ok (pyInt ((acc.2.1 : ℚ) / (acc.1 : ℚ)), pyInt ((acc.2.2 : ℚ) / (acc.1 : ℚ)), 0, 0)

/-- The mutable state of the filterpy `KalmanFilter`: the state estimate
`x = [x, y, dx, dy]` and its covariance `P`.  The transition matrix `F`,
observation matrix `H`, measurement noise `R` and process noise `Q` are
constants and are kept as separate definitions below. -/
structure KalmanState where
  x : Fin 4 → ℚ
  P : Mat 4 4

/-- The 4×4 identity matrix (`np.eye(4)`). -/
def id4 : Mat 4 4 :=
  row4 (vec4 1 0 0 0) (vec4 0 1 0 0) (vec4 0 0 1 0) (vec4 0 0 0 1)

/-- The constant-velocity transition matrix `kf.F`: identity plus ones at
`(0,2)` and `(1,3)`. -/
def Fmat : Mat 4 4 :=
  row4 (vec4 1 0 1 0) (vec4 0 1 0 1) (vec4 0 0 1 0) (vec4 0 0 0 1)

/-- The observation matrix `kf.H`: only the two position components are
observed. -/
def Hmat : Mat 2 4 := row2 (vec4 1 0 0 0) (vec4 0 1 0 0)

/-- The process noise `kf.Q = np.eye(4) * 0.03`. -/
def Qmat : Mat 4 4 :=
  row4 (vec4 (3 / 100) 0 0 0) (vec4 0 (3 / 100) 0 0)
    (vec4 0 0 (3 / 100) 0) (vec4 0 0 0 (3 / 100))

/-- The measurement noise `kf.R`, `np.eye(2)` scaled by `5`. -/
def Rmat : Mat 2 2 := row2 (vec2 5 0) (vec2 0 5)

/-- Embedding of the source's Kalman filter construction function: the state
starts at zero and the covariance is `np.eye(4)` scaled by `1000` (the
transition, observation and noise matrices it sets are the constants
`Fmat`, `Hmat`, `Rmat`, `Qmat` above). -/
def mk_kalman_filter : KalmanState :=
  { x := vec4 0 0 0 0
    P := row4 (vec4 1000 0 0 0) (vec4 0 1000 0 0) (vec4 0 0 1000 0) (vec4 0 0 0 1000) }

/-- The filterpy `predict` step: `x ← F x`, `P ← F P Fᵀ + Q`. -/
def kalman_predict (kf : KalmanState) : KalmanState :=
  { x := mulV4 Fmat kf.x
    P := matAdd (mulX4 (mulX4 Fmat kf.P) (matT Fmat)) Qmat }

/-- The filterpy `update` step with measurement `z`: innovation
`y = z - H x`, innovation covariance `S = H P Hᵀ + R`, gain `K = P Hᵀ S⁻¹`,
then `x ← x + K y` and the Joseph-form covariance update
`P ← (I - K H) P (I - K H)ᵀ + K R Kᵀ`. -/
def kalman_update (kf : KalmanState) (z : Fin 2 → ℚ) : KalmanState :=
  let y : Fin 2 → ℚ := fun i => z i - mulV4 Hmat kf.x i
  let S : Mat 2 2 := matAdd (mulX4 (mulX4 Hmat kf.P) (matT Hmat)) Rmat
  let K : Mat 4 2 := mulX2 (mulX4 kf.P (matT Hmat)) (inv2 S)
  let IKH : Mat 4 4 := fun i j => id4 i j - mulX2 K Hmat i j
  { x := fun i => kf.x i + mulV2 K y i
    P := matAdd (mulX4 (mulX4 IKH kf.P) (matT IKH)) (mulX2 (mulX2 K Rmat) (matT K)) }

/-- The state transition one loop iteration of the source's `track_viewport`
applies to the filter: on the first frame overwrite `kf.x` with
`[cx, cy, 0, 0]`, then (on every frame, including the first) predict and
update with the measurement `[cx, cy]`. -/
def kalStep (kf : KalmanState) (first : Bool) (cx cy : ℤ) : KalmanState :=
  kalman_update
    (kalman_predict (if first then { kf with x := vec4 (cx : ℚ) (cy : ℚ) 0 0 } else kf))
    (vec2 (cx : ℚ) (cy : ℚ))

/-- The per-frame loop of the Kalman `track_viewport` from
`src/viewport_tracker_kalman.py`: compute the ROI, advance the filter by
`kalStep`, truncate the two position components to integers, clamp into the
bounds derived from the first frame, and emit.  A motion result list shorter
than the frame list raises an `IndexError`. -/
def kalGo (frame_width frame_height half_w half_h : ℤ) :
    List Shape → List (List Box) → KalmanState → Bool → Except PyErr (List (ℤ × ℤ))
  | [], _, _, _ => .ok []
  | _ :: _, [], _, _ => .error .indexError
  | f :: fs, m :: ms, kf, first =>
    match calculate_region_of_interest m f with
    | .error e => .error e
    | .ok (cx, cy, _, _) =>
      let kf1 := kalStep kf first cx cy
      let sx := pyInt (kf1.x 0)
      let sy := pyInt (kf1.x 1)
      let px := max half_w (min (frame_width - half_w) sx)
      let py := max half_h (min (frame_height - half_h) sy)
      match kalGo frame_width frame_height half_w half_h fs ms kf1 false with
      | .error e => .error e
      | .ok rest => .ok ((px, py) :: rest)

/-- Embedding of the Kalman `track_viewport` from
`src/viewport_tracker_kalman.py`.  An empty frame list returns `[]`;
otherwise the clamp bounds are fixed from the first frame's shape and the
viewport size, the filter is initialized, and the per-frame loop runs with
the first-frame flag set. -/
def track_viewport (frames : List Shape) (motion_results : List (List Box))
    (viewport_size : ℤ × ℤ) : Except PyErr (List (ℤ × ℤ)) :=
  match frames with
  | [] => .ok []
  | f0 :: _ =>
    kalGo f0.2 f0.1 (viewport_size.1 / 2) (viewport_size.2 / 2)
      frames motion_results mk_kalman_filter true

end viewport_tracker_kalman

namespace motion_detector

/-- A video frame, abstracted to its pixel dimensions `(height, width)`; the
pixel contents are consumed only by the external image-processing primitives,
which are passed in abstractly (see `detect_motion`). -/
structure Frame where
  shape : Shape
  deriving DecidableEq

/-- An external contour as returned by the image-processing chain
(grayscale, blur, absolute difference, threshold, dilate, find contours):
its bounding rectangle together with its `cv2.contourArea`. -/
structure Contour where
  x : ℤ
  y : ℤ
  w : ℤ
  h : ℤ
  area : ℚ
  deriving DecidableEq

/-- Embedding of `detect_motion` from `src/motion_detector.py`.  The
image-processing chain applied to the two frames (grayscale conversion, blur,
`absdiff`, threshold at `threshold`, dilation, external contour extraction)
is out of the repository and is abstracted as the `contoursOf` argument,
parameterized by the threshold.  The code's own logic is embedded exactly:
if `frame_idx < 1` or `frame_idx >= len(frames)` it returns the empty list
(a normal result); otherwise it runs the chain (`cv2.absdiff` raises the
library error when the two frames have different shapes) and keeps the
bounding rectangle of every contour whose area is at least `min_area`. -/
def detect_motion (contoursOf : ℤ → Frame → Frame → List Contour)
    (frames : List Frame) (frame_idx : ℤ) (threshold : ℤ) (min_area : ℚ) :
    Except PyErr (List Box) :=
  if frame_idx < 1 ∨ (frames.length : ℤ) ≤ frame_idx then .ok []
  else
    let current_frame := frames.getD frame_idx.toNat ⟨(0, 0)⟩
    let prev_frame := frames.getD (frame_idx.toNat - 1) ⟨(0, 0)⟩
    if current_frame.shape ≠ prev_frame.shape then .error .cvError
    else
      .ok (((contoursOf threshold prev_frame current_frame).filter
              (fun cnt => min_area ≤ cnt.area)).map
            (fun cnt => { x := cnt.x, y := cnt.y, w := cnt.w, h := cnt.h }))

end motion_detector

/-
  Specification-side definitions.  These are not translations of the source;
  they state, in closed form, what the specification says, and the claim
  theorems compare the source embeddings against them.
-/

/-- The total area `Σ area_i` of a motion box list, `area_i = w_i * h_i`. -/
def totalArea (boxes : List Box) : ℤ := (boxes.map (fun b => b.w * b.h)).sum

/-- The area-weighted sum `Σ center_x_i * area_i` over a motion box list,
with `center_x_i = x_i + w_i // 2` as in the source. -/
def weightedX (boxes : List Box) : ℤ :=
  (boxes.map (fun b => (b.x + b.w / 2) * (b.w * b.h))).sum

/-- The area-weighted sum `Σ center_y_i * area_i` over a motion box list,
with `center_y_i = y_i + h_i // 2` as in the source. -/
def weightedY (boxes : List Box) : ℤ :=
  (boxes.map (fun b => (b.y + b.h / 2) * (b.w * b.h))).sum

namespace viewport_tracker_kalman

/-- Specification-side variant of `kalGo` with the boundary clamp removed:
the emitted positions are the truncated state positions themselves.  It takes
no viewport size and no clamp bounds.  Used to state that clamping affects
only the reported trajectory (claim about the frame effect of clamping). -/
def kalGoRaw : List Shape → List (List Box) → KalmanState → Bool →
    Except PyErr (List (ℤ × ℤ))
  | [], _, _, _ => .ok []
  | _ :: _, [], _, _ => .error .indexError
  | f :: fs, m :: ms, kf, first =>
    match calculate_region_of_interest m f with
    | .error e => .error e
    | .ok (cx, cy, _, _) =>
      let kf1 := kalStep kf first cx cy
      match kalGoRaw fs ms kf1 false with
      | .error e => .error e
      | .ok rest => .ok ((pyInt (kf1.x 0), pyInt (kf1.x 1)) :: rest)

/-- The unclamped truncated Kalman trajectory of a run, a function of the
frame shapes (for the ROIs) and motion results only. -/
def raw_positions (frames : List Shape) (motion_results : List (List Box)) :
    Except PyErr (List (ℤ × ℤ)) :=
  match frames with
  | [] => .ok []
  | _ :: _ => kalGoRaw frames motion_results mk_kalman_filter true

end viewport_tracker_kalman

namespace kalman_bypass_spec

open viewport_tracker_kalman

/-- Modelled from the spec: the per-frame cycle it describes for the Kalman
variant, in which the very first frame initializes `s = [cx, cy, 0, 0]`
directly from the ROI and BYPASSES predict/update, and predict followed by
update runs only on every later frame.  This is the reading under test of
the claim about the first-frame cycle; the source runs predict/update on
every frame, including the first.  `bypassStep` is the described per-frame
state transition: the first frame only initializes the state from the ROI
(no predict, no update); later frames predict then update. -/
def bypassStep (kf : KalmanState) (first : Bool) (cx cy : ℤ) : KalmanState :=
  if first then { kf with x := vec4 (cx : ℚ) (cy : ℚ) 0 0 }
  else kalman_update (kalman_predict kf) (vec2 (cx : ℚ) (cy : ℚ))

def bypassGo (frame_width frame_height half_w half_h : ℤ) :
    List Shape → List (List Box) → KalmanState → Bool → Except PyErr (List (ℤ × ℤ))
  | [], _, _, _ => .ok []
  | _ :: _, [], _, _ => .error .indexError
  | f :: fs, m :: ms, kf, first =>
    match calculate_region_of_interest m f with
    | .error e => .error e
    | .ok (cx, cy, _, _) =>
      let kf1 := bypassStep kf first cx cy
      let sx := pyInt (kf1.x 0)
      let sy := pyInt (kf1.x 1)
      let px := max half_w (min (frame_width - half_w) sx)
      let py := max half_h (min (frame_height - half_h) sy)
      match bypassGo frame_width frame_height half_w half_h fs ms kf1 false with
      | .error e => .error e
      | .ok rest => .ok ((px, py) :: rest)

/-- Modelled from the spec: `track_viewport` as the specification describes
the Kalman variant's control flow (first frame bypasses predict/update). -/
def track_viewport (frames : List Shape) (motion_results : List (List Box))
    (viewport_size : ℤ × ℤ) : Except PyErr (List (ℤ × ℤ)) :=
  match frames with
  | [] => .ok []
  | f0 :: _ =>
    bypassGo f0.2 f0.1 (viewport_size.1 / 2) (viewport_size.2 / 2)
      frames motion_results mk_kalman_filter true

end kalman_bypass_spec

/-
  Helper lemmas.
-/

lemma pyInt_intCast (n : ℤ) : pyInt (n : ℚ) = n := by
  unfold pyInt
  split <;> simp

lemma pyInt_eq_of {q : ℚ} {n : ℤ} (hn : 0 ≤ n) (h1 : (n : ℚ) ≤ q) (h2 : q < n + 1) :
    pyInt q = n := by
  have hq : ¬ q < 0 := by
    have : (0 : ℚ) ≤ (n : ℚ) := by exact_mod_cast hn
    linarith
  unfold pyInt
  rw [if_neg hq]
  rw [Int.floor_eq_iff]
  exact ⟨h1, by exact_mod_cast h2⟩

lemma pyInt_between {p c : ℤ} {q : ℚ} (h1 : (p : ℚ) ≤ q) (h2 : q ≤ (c : ℚ)) :
    p ≤ pyInt q ∧ pyInt q ≤ c := by
  unfold pyInt
  split
  · constructor
    · exact_mod_cast h1.trans (Int.le_ceil q)
    · exact Int.ceil_le.mpr h2
  · constructor
    · exact Int.le_floor.mpr h1
    · exact_mod_cast (Int.floor_le q).trans h2

lemma clamp_low {lo hi v : ℤ} : lo ≤ max lo (min hi v) := le_max_left _ _

lemma clamp_high {lo hi v : ℤ} (h : lo ≤ hi) : max lo (min hi v) ≤ hi :=
  max_le h (min_le_left _ _)

lemma clamp_eq_self {lo hi v : ℤ} (h1 : lo ≤ v) (h2 : v ≤ hi) :
    max lo (min hi v) = v := by
  rw [min_eq_right h2, max_eq_right h1]

/-- The accumulating loop of the aggregators equals the closed-form sums. -/
lemma roi_foldl (boxes : List Box) (a wx wy : ℤ) :
    boxes.foldl
      (fun acc b =>
        let area := b.w * b.h
        let center_x := b.x + b.w / 2
        let center_y := b.y + b.h / 2
        (acc.1 + area, acc.2.1 + center_x * area, acc.2.2 + center_y * area))
      (a, wx, wy) =
      (a + totalArea boxes, wx + weightedX boxes, wy + weightedY boxes) := by
  induction boxes generalizing a wx wy with
  | nil => simp [totalArea, weightedX, weightedY]
  | cons b bs ih =>
    simp only [List.foldl_cons, ih, totalArea, weightedX, weightedY, List.map_cons,
      List.sum_cons]
    refine Prod.ext ?_ (Prod.ext ?_ ?_) <;> simp <;> ring

/-- The two aggregator embeddings are the same function (the source bodies
are identical). -/
lemma roi_kalman_eq :
    viewport_tracker_kalman.calculate_region_of_interest =
      viewport_tracker.calculate_region_of_interest := rfl

lemma roi_pos_total {boxes : List Box} (s : Shape) (h : totalArea boxes ≠ 0) :
    viewport_tracker.calculate_region_of_interest boxes s =
      .ok (pyInt ((weightedX boxes : ℚ) / (totalArea boxes : ℚ)),
           pyInt ((weightedY boxes : ℚ) / (totalArea boxes : ℚ)), 0, 0) := by
  match boxes with
  | [] => simp [totalArea] at h
  | b :: bs =>
    unfold viewport_tracker.calculate_region_of_interest
    simp only [roi_foldl, zero_add]
    rw [if_neg h]

lemma roi_zero_total {boxes : List Box} (s : Shape) (hne : boxes ≠ [])
    (h : totalArea boxes = 0) :
    viewport_tracker.calculate_region_of_interest boxes s = .error .zeroDivisionError := by
  match boxes with
  | [] => exact absurd rfl hne
  | b :: bs =>
    unfold viewport_tracker.calculate_region_of_interest
    simp only [roi_foldl, zero_add]
    rw [if_pos h]

lemma emaGo_nil (α : ℚ) (hw hh : ℤ) (ms : List (List Box)) (px py : ℤ) :
    viewport_tracker.emaGo α hw hh [] ms px py = .ok [] := rfl

/-- Unrolling lemma for one iteration of the EMA loop. -/
lemma emaGo_cons {α : ℚ} {hw hh : ℤ} {f : Shape} {fs : List Shape} {m : List Box}
    {ms : List (List Box)} {px py cx cy u v : ℤ}
    (hroi : viewport_tracker.calculate_region_of_interest m f = .ok (cx, cy, u, v)) :
    viewport_tracker.emaGo α hw hh (f :: fs) (m :: ms) px py =
      Except.map
        (fun rest =>
          (max hw (min (f.2 - hw) (pyInt (α * (cx : ℚ) + (1 - α) * (px : ℚ)))),
           max hh (min (f.1 - hh) (pyInt (α * (cy : ℚ) + (1 - α) * (py : ℚ))))) :: rest)
        (viewport_tracker.emaGo α hw hh fs ms
          (max hw (min (f.2 - hw) (pyInt (α * (cx : ℚ) + (1 - α) * (px : ℚ)))))
          (max hh (min (f.1 - hh) (pyInt (α * (cy : ℚ) + (1 - α) * (py : ℚ)))))) := by
  simp only [viewport_tracker.emaGo, hroi]
  split
  · rename_i h
    rw [h]
    rfl
  · rename_i rest h
    rw [h]
    rfl

/-- Every position the EMA loop emits is clamped into the bounds. -/
lemma emaGo_bounds {α : ℚ} {hw hh H W : ℤ} (hbw : hw ≤ W - hw) (hbh : hh ≤ H - hh) :
    ∀ (fs : List Shape) (ms : List (List Box)) (px py : ℤ) (ps : List (ℤ × ℤ)),
      (∀ f ∈ fs, f = (H, W)) →
      viewport_tracker.emaGo α hw hh fs ms px py = .ok ps →
      ∀ p ∈ ps, (hw ≤ p.1 ∧ p.1 ≤ W - hw) ∧ (hh ≤ p.2 ∧ p.2 ≤ H - hh)
  | [], ms, px, py, ps, _, hrun => by
      simp only [viewport_tracker.emaGo, Except.ok.injEq] at hrun
      subst hrun
      simp
  | f :: fs, [], px, py, ps, _, hrun => by
      simp only [viewport_tracker.emaGo] at hrun
      exact absurd hrun (by simp)
  | f :: fs, m :: ms, px, py, ps, hall, hrun => by
      have hf : f = (H, W) := hall f (by simp)
      subst hf
      cases hroi : viewport_tracker.calculate_region_of_interest m (H, W) with
      | error e =>
        simp only [viewport_tracker.emaGo, hroi] at hrun
        exact absurd hrun (by simp)
      | ok val =>
        obtain ⟨cx, cy, u, v⟩ := val
        rw [emaGo_cons hroi] at hrun
        cases hrec : viewport_tracker.emaGo α hw hh fs ms
            (max hw (min ((H, W).2 - hw) (pyInt (α * (cx : ℚ) + (1 - α) * (px : ℚ)))))
            (max hh (min ((H, W).1 - hh) (pyInt (α * (cy : ℚ) + (1 - α) * (py : ℚ))))) with
        | error e =>
          rw [hrec] at hrun
          exact absurd hrun (by simp [Except.map])
        | ok rest =>
          rw [hrec] at hrun
          simp only [Except.map, Except.ok.injEq] at hrun
          subst hrun
          intro p hp
          rcases List.mem_cons.mp hp with hphead | hptail
          · subst hphead
            exact ⟨⟨clamp_low, clamp_high hbw⟩, ⟨clamp_low, clamp_high hbh⟩⟩
          · exact emaGo_bounds hbw hbh fs ms _ _ rest (fun g hg => hall g (by simp [hg]))
              hrec p hptail

lemma kalGo_nil (fw fh hw hh : ℤ) (ms : List (List Box)) (kf : viewport_tracker_kalman.KalmanState)
    (first : Bool) : viewport_tracker_kalman.kalGo fw fh hw hh [] ms kf first = .ok [] := rfl

/-- Unrolling lemma for one iteration of the Kalman loop. -/
lemma kalGo_cons {fw fh hw hh : ℤ} {f : Shape} {fs : List Shape} {m : List Box}
    {ms : List (List Box)} {kf : viewport_tracker_kalman.KalmanState} {first : Bool}
    {cx cy u v : ℤ}
    (hroi : viewport_tracker_kalman.calculate_region_of_interest m f = .ok (cx, cy, u, v)) :
    viewport_tracker_kalman.kalGo fw fh hw hh (f :: fs) (m :: ms) kf first =
      Except.map
        (fun rest =>
          (max hw (min (fw - hw) (pyInt ((viewport_tracker_kalman.kalStep kf first cx cy).x 0))),
           max hh (min (fh - hh) (pyInt ((viewport_tracker_kalman.kalStep kf first cx cy).x 1))))
          :: rest)
        (viewport_tracker_kalman.kalGo fw fh hw hh fs ms
          (viewport_tracker_kalman.kalStep kf first cx cy) false) := by
  simp only [viewport_tracker_kalman.kalGo, hroi]
  split
  · rename_i h
    rw [h]
    rfl
  · rename_i rest h
    rw [h]
    rfl

/-- Every position the Kalman loop emits is clamped into the bounds. -/
lemma kalGo_bounds {fw fh hw hh : ℤ} (hbw : hw ≤ fw - hw) (hbh : hh ≤ fh - hh) :
    ∀ (fs : List Shape) (ms : List (List Box)) (kf : viewport_tracker_kalman.KalmanState)
      (first : Bool) (ps : List (ℤ × ℤ)),
      viewport_tracker_kalman.kalGo fw fh hw hh fs ms kf first = .ok ps →
      ∀ p ∈ ps, (hw ≤ p.1 ∧ p.1 ≤ fw - hw) ∧ (hh ≤ p.2 ∧ p.2 ≤ fh - hh)
  | [], ms, kf, first, ps, hrun => by
      simp only [viewport_tracker_kalman.kalGo, Except.ok.injEq] at hrun
      subst hrun
      simp
  | f :: fs, [], kf, first, ps, hrun => by
      simp only [viewport_tracker_kalman.kalGo] at hrun
      exact absurd hrun (by simp)
  | f :: fs, m :: ms, kf, first, ps, hrun => by
      cases hroi : viewport_tracker_kalman.calculate_region_of_interest m f with
      | error e =>
        simp only [viewport_tracker_kalman.kalGo, hroi] at hrun
        exact absurd hrun (by simp)
      | ok val =>
        obtain ⟨cx, cy, u, v⟩ := val
        rw [kalGo_cons hroi] at hrun
        cases hrec : viewport_tracker_kalman.kalGo fw fh hw hh fs ms
            (viewport_tracker_kalman.kalStep kf first cx cy) false with
        | error e =>
          rw [hrec] at hrun
          exact absurd hrun (by simp [Except.map])
        | ok rest =>
          rw [hrec] at hrun
          simp only [Except.map, Except.ok.injEq] at hrun
          subst hrun
          intro p hp
          rcases List.mem_cons.mp hp with hphead | hptail
          · subst hphead
            exact ⟨⟨clamp_low, clamp_high hbw⟩, ⟨clamp_low, clamp_high hbh⟩⟩
          · exact kalGo_bounds hbw hbh fs ms _ false rest hrec p hptail

/-- Exact-division evaluation for `pyInt`. -/
lemma pyInt_div_exact {a b c : ℤ} (hb : b ≠ 0) (h : a = b * c) :
    pyInt ((a : ℚ) / (b : ℚ)) = c := by
  have hbq : (b : ℚ) ≠ 0 := by exact_mod_cast hb
  have harg : (a : ℚ) / (b : ℚ) = ((c : ℤ) : ℚ) := by
    rw [h]
    push_cast
    field_simp
  rw [harg, pyInt_intCast]

/-- Evaluation of the aggregator on a concrete non-degenerate box list. -/
lemma roi_eval {boxes : List Box} (s : Shape) (t tx ty : ℤ) {X Y : ℤ}
    (ht : totalArea boxes = t) (hx : weightedX boxes = tx) (hy : weightedY boxes = ty)
    (htne : t ≠ 0) (hX : pyInt ((tx : ℚ) / (t : ℚ)) = X) (hY : pyInt ((ty : ℚ) / (t : ℚ)) = Y) :
    viewport_tracker.calculate_region_of_interest boxes s = .ok (X, Y, 0, 0) := by
  subst ht hx hy
  rw [roi_pos_total s htne, hX, hY]

/-- On the very first frame the source's per-frame Kalman transition leaves
the position components at the just-initialized measurement: the predict step
does not move a zero-velocity state and the update step sees a zero
innovation.  First position component. -/
lemma kalStep_first_x0 (cx cy : ℤ) :
    (viewport_tracker_kalman.kalStep viewport_tracker_kalman.mk_kalman_filter
      true cx cy).x 0 = ((cx : ℤ) : ℚ) := by
  norm_num [viewport_tracker_kalman.kalStep, viewport_tracker_kalman.kalman_update,
    viewport_tracker_kalman.kalman_predict, viewport_tracker_kalman.mk_kalman_filter,
    viewport_tracker_kalman.Fmat, viewport_tracker_kalman.Hmat,
    viewport_tracker_kalman.Qmat, viewport_tracker_kalman.Rmat,
    viewport_tracker_kalman.id4, mulV4, mulV2, mulX4, mulX2, matAdd, matT, inv2,
    vec4, vec2, row4, row2]

/-- Same as `kalStep_first_x0`, second position component. -/
lemma kalStep_first_x1 (cx cy : ℤ) :
    (viewport_tracker_kalman.kalStep viewport_tracker_kalman.mk_kalman_filter
      true cx cy).x 1 = ((cy : ℤ) : ℚ) := by
  norm_num [viewport_tracker_kalman.kalStep, viewport_tracker_kalman.kalman_update,
    viewport_tracker_kalman.kalman_predict, viewport_tracker_kalman.mk_kalman_filter,
    viewport_tracker_kalman.Fmat, viewport_tracker_kalman.Hmat,
    viewport_tracker_kalman.Qmat, viewport_tracker_kalman.Rmat,
    viewport_tracker_kalman.id4, mulV4, mulV2, mulX4, mulX2, matAdd, matT, inv2,
    vec4, vec2, row4, row2]

/-- The aggregator can only raise `ZeroDivisionError`. -/
lemma roi_err {m : List Box} {f : Shape} {e : PyErr}
    (h : viewport_tracker.calculate_region_of_interest m f = .error e) :
    e = .zeroDivisionError := by
  match m with
  | [] => exact absurd h (by simp [viewport_tracker.calculate_region_of_interest])
  | b :: bs =>
    unfold viewport_tracker.calculate_region_of_interest at h
    simp only at h
    split at h
    · simp only [Except.error.injEq] at h
      exact h.symm
    · exact absurd h (by simp)

/-- The EMA loop can only raise `ZeroDivisionError` or `IndexError`. -/
lemma emaGo_err {α : ℚ} {hw hh : ℤ} :
    ∀ (fs : List Shape) (ms : List (List Box)) (px py : ℤ) (e : PyErr),
      viewport_tracker.emaGo α hw hh fs ms px py = .error e →
      e = .zeroDivisionError ∨ e = .indexError
  | [], ms, px, py, e, h => absurd h (by simp [viewport_tracker.emaGo])
  | f :: fs, [], px, py, e, h => by
      simp only [viewport_tracker.emaGo, Except.error.injEq] at h
      exact Or.inr h.symm
  | f :: fs, m :: ms, px, py, e, h => by
      cases hroi : viewport_tracker.calculate_region_of_interest m f with
      | error e' =>
        simp only [viewport_tracker.emaGo, hroi, Except.error.injEq] at h
        exact Or.inl (h ▸ roi_err hroi)
      | ok val =>
        obtain ⟨cx, cy, u, v⟩ := val
        rw [emaGo_cons hroi] at h
        cases hrec : viewport_tracker.emaGo α hw hh fs ms
            (max hw (min (f.2 - hw) (pyInt (α * (cx : ℚ) + (1 - α) * (px : ℚ)))))
            (max hh (min (f.1 - hh) (pyInt (α * (cy : ℚ) + (1 - α) * (py : ℚ))))) with
        | error e' =>
          rw [hrec] at h
          simp only [Except.map, Except.error.injEq] at h
          exact h ▸ emaGo_err fs ms _ _ e' hrec
        | ok rest =>
          rw [hrec] at h
          exact absurd h (by simp [Except.map])

/-- Well-formed inputs (per-frame aggregation succeeds) make the EMA loop
succeed with one position per frame, for every smoothing factor. -/
lemma emaGo_total {α : ℚ} {hw hh : ℤ} {fs : List Shape} {ms : List (List Box)}
    (h : List.Forall₂
      (fun f m => ∃ c, viewport_tracker.calculate_region_of_interest m f = .ok c) fs ms) :
    ∀ px py, ∃ ps, viewport_tracker.emaGo α hw hh fs ms px py = .ok ps ∧
      ps.length = fs.length := by
  induction h with
  | nil => exact fun px py => ⟨[], rfl, rfl⟩
  | @cons f m fs' ms' hfm htail ih =>
    intro px py
    obtain ⟨⟨cx, cy, u, v⟩, hroi⟩ := hfm
    obtain ⟨ps, hps, hlen⟩ := ih
      (max hw (min (f.2 - hw) (pyInt (α * (cx : ℚ) + (1 - α) * (px : ℚ)))))
      (max hh (min (f.1 - hh) (pyInt (α * (cy : ℚ) + (1 - α) * (py : ℚ)))))
    refine ⟨(max hw (min (f.2 - hw) (pyInt (α * (cx : ℚ) + (1 - α) * (px : ℚ)))),
             max hh (min (f.1 - hh) (pyInt (α * (cy : ℚ) + (1 - α) * (py : ℚ))))) :: ps, ?_, ?_⟩
    · rw [emaGo_cons hroi, hps]
      rfl
    · simp [hlen]

/-- The truncated EMA blend of an integer target `c` and an integer previous
value `p` lies between them, for any smoothing factor in `(0, 1]`. -/
lemma ema_between {α : ℚ} (hα0 : 0 < α) (hα1 : α ≤ 1) (p c : ℤ) :
    min p c ≤ pyInt (α * (c : ℚ) + (1 - α) * (p : ℚ)) ∧
    pyInt (α * (c : ℚ) + (1 - α) * (p : ℚ)) ≤ max p c := by
  rcases le_total p c with h | h
  · have hpc : ((p : ℚ)) ≤ ((c : ℚ)) := by exact_mod_cast h
    have hq1 : ((p : ℚ)) ≤ α * (c : ℚ) + (1 - α) * (p : ℚ) := by nlinarith
    have hq2 : α * (c : ℚ) + (1 - α) * (p : ℚ) ≤ ((c : ℚ)) := by nlinarith
    obtain ⟨h1, h2⟩ := pyInt_between hq1 hq2
    exact ⟨le_trans (min_le_left _ _) h1, le_trans h2 (le_max_right _ _)⟩
  · have hcp : ((c : ℚ)) ≤ ((p : ℚ)) := by exact_mod_cast h
    have hq1 : ((c : ℚ)) ≤ α * (c : ℚ) + (1 - α) * (p : ℚ) := by nlinarith
    have hq2 : α * (c : ℚ) + (1 - α) * (p : ℚ) ≤ ((p : ℚ)) := by nlinarith
    obtain ⟨h1, h2⟩ := pyInt_between hq1 hq2
    exact ⟨le_trans (min_le_right _ _) h1, le_trans h2 (le_max_left _ _)⟩

/-- A value between `p` and `c` is no farther from `c` than `p` is. -/
lemma abs_closer {s p c : ℤ} (h1 : min p c ≤ s) (h2 : s ≤ max p c) :
    |s - c| ≤ |p - c| := by
  rcases le_total p c with h | h
  · rw [abs_of_nonpos (by omega), abs_of_nonpos (by omega)]
    omega
  · rw [abs_of_nonneg (by omega), abs_of_nonneg (by omega)]
    omega

/-- With `α = 1` the truncated EMA blend is the target itself. -/
lemma ema_one (p c : ℤ) :
    pyInt ((1 : ℚ) * (c : ℚ) + (1 - (1 : ℚ)) * (p : ℚ)) = c := by
  have harg : ((1 : ℚ) * (c : ℚ) + (1 - (1 : ℚ)) * (p : ℚ)) = ((c : ℤ) : ℚ) := by
    ring
  rw [harg, pyInt_intCast]

/-- On a constant in-bounds ROI, the EMA loop run from any in-bounds start
succeeds, its positions move monotonically closer to the ROI in each
coordinate, and with `α = 1` every emitted position is the ROI itself. -/
lemma emaGo_const_chain {α : ℚ} (hα0 : 0 < α) (hα1 : α ≤ 1) {H W cx cy hw hh : ℤ}
    {m : List Box}
    (hroi : viewport_tracker.calculate_region_of_interest m (H, W) = .ok (cx, cy, 0, 0))
    (hbx1 : hw ≤ cx) (hbx2 : cx ≤ W - hw) (hby1 : hh ≤ cy) (hby2 : cy ≤ H - hh) :
    ∀ (n : ℕ) (px py : ℤ), hw ≤ px → px ≤ W - hw → hh ≤ py → py ≤ H - hh →
      ∃ ps, viewport_tracker.emaGo α hw hh (List.replicate n (H, W)) (List.replicate n m)
          px py = .ok ps ∧
        List.Chain' (fun a b : ℤ × ℤ => |b.1 - cx| ≤ |a.1 - cx| ∧ |b.2 - cy| ≤ |a.2 - cy|)
          ((px, py) :: ps) ∧
        (α = 1 → ∀ p ∈ ps, p = (cx, cy))
  | 0, px, py, _, _, _, _ => ⟨[], rfl, by simp, by simp⟩
  | (n + 1), px, py, hpx1, hpx2, hpy1, hpy2 => by
      obtain ⟨sx, hsxdef⟩ : ∃ s, pyInt (α * (cx : ℚ) + (1 - α) * (px : ℚ)) = s := ⟨_, rfl⟩
      obtain ⟨sy, hsydef⟩ : ∃ s, pyInt (α * (cy : ℚ) + (1 - α) * (py : ℚ)) = s := ⟨_, rfl⟩
      have hbx := ema_between hα0 hα1 px cx
      have hby := ema_between hα0 hα1 py cy
      rw [hsxdef] at hbx
      rw [hsydef] at hby
      have hsx1 : hw ≤ sx := by omega
      have hsx2 : sx ≤ W - hw := by omega
      have hsy1 : hh ≤ sy := by omega
      have hsy2 : sy ≤ H - hh := by omega
      obtain ⟨ps, hps, hchain, hone⟩ := emaGo_const_chain hα0 hα1 hroi hbx1 hbx2 hby1 hby2
        n sx sy hsx1 hsx2 hsy1 hsy2
      refine ⟨(sx, sy) :: ps, ?_, ?_, ?_⟩
      · rw [List.replicate_succ, List.replicate_succ, emaGo_cons hroi, hsxdef, hsydef]
        dsimp only
        rw [clamp_eq_self hsx1 hsx2, clamp_eq_self hsy1 hsy2, hps]
        rfl
      · rw [List.chain'_cons]
        exact ⟨⟨abs_closer hbx.1 hbx.2, abs_closer hby.1 hby.2⟩, hchain⟩
      · intro h1 p hp
        rcases List.mem_cons.mp hp with hphead | hptail
        · subst hphead
          have hx : sx = cx := by
            rw [← hsxdef, h1, ema_one]
          have hy : sy = cy := by
            rw [← hsydef, h1, ema_one]
          rw [hx, hy]
        · exact hone h1 p hptail

/-
  Claim theorems.
-/

/-- C1: for every run of `track_viewport` (EMA and Kalman variants) on
frames of common shape `(H, W)` with viewport size `(vw, vh)` no larger than
the frame in either axis, every produced position `(x, y)` satisfies
`vw//2 ≤ x ≤ W - vw//2` and `vh//2 ≤ y ≤ H - vh//2`. -/
theorem C1_bounds_invariant (H W vw vh : ℤ) (α : ℚ) (frames : List Shape)
    (motion : List (List Box)) (hf : ∀ f ∈ frames, f = (H, W))
    (hvw : vw ≤ W) (hvh : vh ≤ H) :
    (∀ ps, viewport_tracker.track_viewport frames motion (vw, vh) α = .ok ps →
      ∀ p ∈ ps, (vw / 2 ≤ p.1 ∧ p.1 ≤ W - vw / 2) ∧ (vh / 2 ≤ p.2 ∧ p.2 ≤ H - vh / 2)) ∧
    (∀ ps, viewport_tracker_kalman.track_viewport frames motion (vw, vh) = .ok ps →
      ∀ p ∈ ps, (vw / 2 ≤ p.1 ∧ p.1 ≤ W - vw / 2) ∧ (vh / 2 ≤ p.2 ∧ p.2 ≤ H - vh / 2)) := by
  have hbw : vw / 2 ≤ W - vw / 2 := by omega
  have hbh : vh / 2 ≤ H - vh / 2 := by omega
  constructor
  · intro ps hrun p hp
    cases frames with
    | nil =>
      simp only [viewport_tracker.track_viewport, Except.ok.injEq] at hrun
      subst hrun
      simp at hp
    | cons f0 fs =>
      simp only [viewport_tracker.track_viewport] at hrun
      exact emaGo_bounds hbw hbh (f0 :: fs) motion _ _ ps hf hrun p hp
  · intro ps hrun p hp
    cases frames with
    | nil =>
      simp only [viewport_tracker_kalman.track_viewport, Except.ok.injEq] at hrun
      subst hrun
      simp at hp
    | cons f0 fs =>
      have hf0 : f0 = (H, W) := hf f0 (by simp)
      subst hf0
      simp only [viewport_tracker_kalman.track_viewport] at hrun
      exact kalGo_bounds hbw hbh ((H, W) :: fs) motion _ _ ps hrun p hp

/-- C1 witness: a single 100×100 frame with no motion, viewport 10×10, under
both variants; the produced position `(50, 50)` satisfies the bounds
`5 ≤ 50 ≤ 95` in both coordinates. -/
theorem C1_bounds_invariant_witness :
    ((((10:ℤ) / 2 ≤ 50 ∧ (50:ℤ) ≤ 100 - 10 / 2) ∧
      ((10:ℤ) / 2 ≤ 50 ∧ (50:ℤ) ≤ 100 - 10 / 2)) ∧
     (((10:ℤ) / 2 ≤ 50 ∧ (50:ℤ) ≤ 100 - 10 / 2) ∧
      ((10:ℤ) / 2 ≤ 50 ∧ (50:ℤ) ≤ 100 - 10 / 2))) := by
  have hroi : viewport_tracker.calculate_region_of_interest [] ((100 : ℤ), (100 : ℤ)) =
      .ok (50, 50, 0, 0) := by decide
  have hpy : pyInt ((1/2 : ℚ) * ((50 : ℤ) : ℚ) + (1 - (1/2 : ℚ)) * ((50 : ℤ) : ℚ)) = 50 := by
    have harg : ((1/2 : ℚ) * ((50 : ℤ) : ℚ) + (1 - (1/2 : ℚ)) * ((50 : ℤ) : ℚ)) =
        ((50 : ℤ) : ℚ) := by
      push_cast
      ring
    rw [harg, pyInt_intCast]
  have hEMA : viewport_tracker.track_viewport [((100 : ℤ), (100 : ℤ))] [[]] (10, 10) (1/2) =
      .ok [(50, 50)] := by
    have h1 : viewport_tracker.emaGo (1/2 : ℚ) 5 5 [((100 : ℤ), (100 : ℤ))] [[]] 50 50 =
        .ok [(50, 50)] := by
      rw [emaGo_cons hroi, emaGo_nil]
      simp only [Except.map, hpy]
      decide
    exact h1
  have hroiK : viewport_tracker_kalman.calculate_region_of_interest []
      ((100 : ℤ), (100 : ℤ)) = .ok (50, 50, 0, 0) := by decide
  have hx0 : (viewport_tracker_kalman.kalStep viewport_tracker_kalman.mk_kalman_filter
      true 50 50).x 0 = ((50 : ℤ) : ℚ) := by
    norm_num [viewport_tracker_kalman.kalStep, viewport_tracker_kalman.kalman_update,
      viewport_tracker_kalman.kalman_predict, viewport_tracker_kalman.mk_kalman_filter,
      viewport_tracker_kalman.Fmat, viewport_tracker_kalman.Hmat,
      viewport_tracker_kalman.Qmat, viewport_tracker_kalman.Rmat,
      viewport_tracker_kalman.id4, mulV4, mulV2, mulX4, mulX2, matAdd, matT, inv2,
      vec4, vec2, row4, row2]
  have hx1 : (viewport_tracker_kalman.kalStep viewport_tracker_kalman.mk_kalman_filter
      true 50 50).x 1 = ((50 : ℤ) : ℚ) := by
    norm_num [viewport_tracker_kalman.kalStep, viewport_tracker_kalman.kalman_update,
      viewport_tracker_kalman.kalman_predict, viewport_tracker_kalman.mk_kalman_filter,
      viewport_tracker_kalman.Fmat, viewport_tracker_kalman.Hmat,
      viewport_tracker_kalman.Qmat, viewport_tracker_kalman.Rmat,
      viewport_tracker_kalman.id4, mulV4, mulV2, mulX4, mulX2, matAdd, matT, inv2,
      vec4, vec2, row4, row2]
  have hKal : viewport_tracker_kalman.track_viewport [((100 : ℤ), (100 : ℤ))] [[]] (10, 10) =
      .ok [(50, 50)] := by
    have h1 : viewport_tracker_kalman.kalGo 100 100 5 5 [((100 : ℤ), (100 : ℤ))] [[]]
        viewport_tracker_kalman.mk_kalman_filter true = .ok [(50, 50)] := by
      rw [kalGo_cons hroiK, kalGo_nil]
      simp only [Except.map, hx0, hx1, pyInt_intCast]
      decide
    exact h1
  have h := C1_bounds_invariant 100 100 10 10 (1/2) [((100 : ℤ), (100 : ℤ))] [[]]
    (by simp) (by norm_num) (by norm_num)
  exact ⟨h.1 [(50, 50)] hEMA (50, 50) (by simp), h.2 [(50, 50)] hKal (50, 50) (by simp)⟩

/-- C2: for every frame shape `(H, W)` and motion-box list, both
`calculate_region_of_interest` embeddings return `(W//2, H//2, 0, 0)` on the
empty list, and otherwise, when the total area is nonzero, the area-weighted
centroid `Σ center_i * area_i / Σ area_i` of the box centers, truncated
toward zero, with extent `(0, 0)`. -/
theorem C2_roi_weighted_centroid (boxes : List Box) (H W : ℤ) :
    (boxes = [] →
      viewport_tracker.calculate_region_of_interest boxes (H, W) = .ok (W / 2, H / 2, 0, 0) ∧
      viewport_tracker_kalman.calculate_region_of_interest boxes (H, W) =
        .ok (W / 2, H / 2, 0, 0)) ∧
    (totalArea boxes ≠ 0 →
      viewport_tracker.calculate_region_of_interest boxes (H, W) =
        .ok (pyInt ((weightedX boxes : ℚ) / (totalArea boxes : ℚ)),
             pyInt ((weightedY boxes : ℚ) / (totalArea boxes : ℚ)), 0, 0) ∧
      viewport_tracker_kalman.calculate_region_of_interest boxes (H, W) =
        .ok (pyInt ((weightedX boxes : ℚ) / (totalArea boxes : ℚ)),
             pyInt ((weightedY boxes : ℚ) / (totalArea boxes : ℚ)), 0, 0)) := by
  constructor
  · rintro rfl
    exact ⟨rfl, rfl⟩
  · intro h
    rw [roi_kalman_eq]
    exact ⟨roi_pos_total (H, W) h, roi_pos_total (H, W) h⟩

/-- C2 witness: a single 2×2 box at the origin in a 10×10 frame has nonzero
total area and aggregates to `(1, 1, 0, 0)` under both embeddings. -/
theorem C2_roi_weighted_centroid_witness :
    totalArea [({ x := 0, y := 0, w := 2, h := 2 } : Box)] ≠ 0 ∧
    viewport_tracker.calculate_region_of_interest
      [({ x := 0, y := 0, w := 2, h := 2 } : Box)] (10, 10) = .ok (1, 1, 0, 0) ∧
    viewport_tracker_kalman.calculate_region_of_interest
      [({ x := 0, y := 0, w := 2, h := 2 } : Box)] (10, 10) = .ok (1, 1, 0, 0) := by
  have h := (C2_roi_weighted_centroid [({ x := 0, y := 0, w := 2, h := 2 } : Box)] 10 10).2
    (by decide)
  have hval : pyInt ((weightedX [({ x := 0, y := 0, w := 2, h := 2 } : Box)] : ℚ) /
      (totalArea [({ x := 0, y := 0, w := 2, h := 2 } : Box)] : ℚ)) = 1 := by
    have h4 : (weightedX [({ x := 0, y := 0, w := 2, h := 2 } : Box)] : ℚ) /
        (totalArea [({ x := 0, y := 0, w := 2, h := 2 } : Box)] : ℚ) = ((1 : ℤ) : ℚ) := by
      norm_num [weightedX, totalArea]
    rw [h4, pyInt_intCast]
  have hval2 : pyInt ((weightedY [({ x := 0, y := 0, w := 2, h := 2 } : Box)] : ℚ) /
      (totalArea [({ x := 0, y := 0, w := 2, h := 2 } : Box)] : ℚ)) = 1 := by
    have h4 : (weightedY [({ x := 0, y := 0, w := 2, h := 2 } : Box)] : ℚ) /
        (totalArea [({ x := 0, y := 0, w := 2, h := 2 } : Box)] : ℚ) = ((1 : ℤ) : ℚ) := by
      norm_num [weightedY, totalArea]
    rw [h4, pyInt_intCast]
  refine ⟨by decide, ?_, ?_⟩
  · rw [h.1, hval, hval2]
  · rw [h.2, hval, hval2]

/-- C7 counterexample: with an odd frame width the clamp interval
`[W//2, W - W//2]` contains two integers, so a viewport equal to the full
frame size does not pin the position to the exact center: on a single
100×101 frame with viewport (101, 100), smoothing factor 1 and a motion box
pulling right, the EMA variant produces `(51, 50)`, not the center
`(101//2, 100//2) = (50, 50)`. -/
theorem C7_full_frame_cex :
    viewport_tracker.track_viewport [((100 : ℤ), (101 : ℤ))]
        [[({ x := 99, y := 0, w := 2, h := 2 } : Box)]] (101, 100) 1 = .ok [(51, 50)] ∧
    ((51 : ℤ), (50 : ℤ)) ≠ ((101 : ℤ) / 2, (100 : ℤ) / 2) := by
  constructor
  · have hroi : viewport_tracker.calculate_region_of_interest
        [({ x := 99, y := 0, w := 2, h := 2 } : Box)] ((100 : ℤ), (101 : ℤ)) =
        .ok (100, 1, 0, 0) :=
      roi_eval _ 4 400 4 (by decide) (by decide) (by decide) (by decide)
        (pyInt_div_exact (by decide) (by decide)) (pyInt_div_exact (by decide) (by decide))
    have hpx : pyInt ((1 : ℚ) * ((100 : ℤ) : ℚ) + (1 - (1 : ℚ)) * ((50 : ℤ) : ℚ)) = 100 := by
      have harg : ((1 : ℚ) * ((100 : ℤ) : ℚ) + (1 - (1 : ℚ)) * ((50 : ℤ) : ℚ)) =
          ((100 : ℤ) : ℚ) := by push_cast; ring
      rw [harg, pyInt_intCast]
    have hpy : pyInt ((1 : ℚ) * ((1 : ℤ) : ℚ) + (1 - (1 : ℚ)) * ((50 : ℤ) : ℚ)) = 1 := by
      have harg : ((1 : ℚ) * ((1 : ℤ) : ℚ) + (1 - (1 : ℚ)) * ((50 : ℤ) : ℚ)) =
          ((1 : ℤ) : ℚ) := by push_cast; ring
      rw [harg, pyInt_intCast]
    have h1 : viewport_tracker.emaGo (1 : ℚ) 50 50 [((100 : ℤ), (101 : ℤ))]
        [[({ x := 99, y := 0, w := 2, h := 2 } : Box)]] 50 50 = .ok [(51, 50)] := by
      rw [emaGo_cons hroi, emaGo_nil]
      simp only [Except.map, hpx, hpy]
      decide
    exact h1
  · decide

/-- C7 amended: if the viewport size equals the full frame size AND both
frame dimensions are even (so that the clamp interval degenerates to the
single point `(W//2, H//2)`), then every position produced by either variant
equals the exact frame center.  (With an odd dimension the clamp interval
contains two integers and the position can sit one pixel off center.) -/
theorem C7_full_frame_amended (H W : ℤ) (α : ℚ) (frames : List Shape)
    (motion : List (List Box)) (hf : ∀ f ∈ frames, f = (H, W))
    (hWe : W % 2 = 0) (hHe : H % 2 = 0) :
    (∀ ps, viewport_tracker.track_viewport frames motion (W, H) α = .ok ps →
      ∀ p ∈ ps, p = (W / 2, H / 2)) ∧
    (∀ ps, viewport_tracker_kalman.track_viewport frames motion (W, H) = .ok ps →
      ∀ p ∈ ps, p = (W / 2, H / 2)) := by
  have hbw : W / 2 ≤ W - W / 2 := by omega
  have hbh : H / 2 ≤ H - H / 2 := by omega
  constructor
  · intro ps hrun p hp
    cases frames with
    | nil =>
      simp only [viewport_tracker.track_viewport, Except.ok.injEq] at hrun
      subst hrun
      simp at hp
    | cons f0 fs =>
      simp only [viewport_tracker.track_viewport] at hrun
      have hb := emaGo_bounds hbw hbh (f0 :: fs) motion _ _ ps hf hrun p hp
      have hx : p.1 = W / 2 := by omega
      have hy : p.2 = H / 2 := by omega
      exact Prod.ext hx hy
  · intro ps hrun p hp
    cases frames with
    | nil =>
      simp only [viewport_tracker_kalman.track_viewport, Except.ok.injEq] at hrun
      subst hrun
      simp at hp
    | cons f0 fs =>
      have hf0 : f0 = (H, W) := hf f0 (by simp)
      subst hf0
      simp only [viewport_tracker_kalman.track_viewport] at hrun
      have hb := kalGo_bounds hbw hbh ((H, W) :: fs) motion _ _ ps hrun p hp
      have hx : p.1 = W / 2 := by omega
      have hy : p.2 = H / 2 := by omega
      exact Prod.ext hx hy

/-- C7 amended witness: one 100×100 frame, viewport (100, 100), no motion;
both variants produce only the exact center `(50, 50)`. -/
theorem C7_full_frame_amended_witness :
    ((50 : ℤ), (50 : ℤ)) = ((100 : ℤ) / 2, (100 : ℤ) / 2) ∧
    ((50 : ℤ), (50 : ℤ)) = ((100 : ℤ) / 2, (100 : ℤ) / 2) := by
  have hroi : viewport_tracker.calculate_region_of_interest [] ((100 : ℤ), (100 : ℤ)) =
      .ok (50, 50, 0, 0) := by decide
  have hpy : pyInt ((1/2 : ℚ) * ((50 : ℤ) : ℚ) + (1 - (1/2 : ℚ)) * ((50 : ℤ) : ℚ)) = 50 := by
    have harg : ((1/2 : ℚ) * ((50 : ℤ) : ℚ) + (1 - (1/2 : ℚ)) * ((50 : ℤ) : ℚ)) =
        ((50 : ℤ) : ℚ) := by push_cast; ring
    rw [harg, pyInt_intCast]
  have hEMA : viewport_tracker.track_viewport [((100 : ℤ), (100 : ℤ))] [[]] (100, 100) (1/2) =
      .ok [(50, 50)] := by
    have h1 : viewport_tracker.emaGo (1/2 : ℚ) 50 50 [((100 : ℤ), (100 : ℤ))] [[]] 50 50 =
        .ok [(50, 50)] := by
      rw [emaGo_cons hroi, emaGo_nil]
      simp only [Except.map, hpy]
      decide
    exact h1
  have hroiK : viewport_tracker_kalman.calculate_region_of_interest []
      ((100 : ℤ), (100 : ℤ)) = .ok (50, 50, 0, 0) := by decide
  have hKal : viewport_tracker_kalman.track_viewport [((100 : ℤ), (100 : ℤ))] [[]]
      (100, 100) = .ok [(50, 50)] := by
    have h1 : viewport_tracker_kalman.kalGo 100 100 50 50 [((100 : ℤ), (100 : ℤ))] [[]]
        viewport_tracker_kalman.mk_kalman_filter true = .ok [(50, 50)] := by
      rw [kalGo_cons hroiK, kalGo_nil]
      simp only [Except.map, kalStep_first_x0, kalStep_first_x1, pyInt_intCast]
      decide
    exact h1
  have h := C7_full_frame_amended 100 100 (1/2) [((100 : ℤ), (100 : ℤ))] [[]]
    (by simp) (by decide) (by decide)
  exact ⟨h.1 [(50, 50)] hEMA (50, 50) (by simp), h.2 [(50, 50)] hKal (50, 50) (by simp)⟩

/-- C8 counterexample: the EMA `track_viewport` does not reject the
out-of-range smoothing factor `2`: on a 100×100 frame with no motion it
returns the normal position list `[(50, 50)]` rather than failing with
`InvalidConfig`. -/
theorem C8_invalid_config_cex :
    viewport_tracker.track_viewport [((100 : ℤ), (100 : ℤ))] [[]] (10, 10) 2 =
      .ok [(50, 50)] ∧
    viewport_tracker.track_viewport [((100 : ℤ), (100 : ℤ))] [[]] (10, 10) 2 ≠
      .error .invalidConfig := by
  have hroi : viewport_tracker.calculate_region_of_interest [] ((100 : ℤ), (100 : ℤ)) =
      .ok (50, 50, 0, 0) := by decide
  have hpy : pyInt ((2 : ℚ) * ((50 : ℤ) : ℚ) + (1 - (2 : ℚ)) * ((50 : ℤ) : ℚ)) = 50 := by
    have harg : ((2 : ℚ) * ((50 : ℤ) : ℚ) + (1 - (2 : ℚ)) * ((50 : ℤ) : ℚ)) =
        ((50 : ℤ) : ℚ) := by push_cast; ring
    rw [harg, pyInt_intCast]
  have h1 : viewport_tracker.emaGo (2 : ℚ) 5 5 [((100 : ℤ), (100 : ℤ))] [[]] 50 50 =
      .ok [(50, 50)] := by
    rw [emaGo_cons hroi, emaGo_nil]
    simp only [Except.map, hpy]
    decide
  exact ⟨h1, by rw [show viewport_tracker.track_viewport [((100 : ℤ), (100 : ℤ))] [[]]
    (10, 10) 2 = .ok [(50, 50)] from h1]; simp⟩

/-- C8 amended: the EMA `track_viewport` performs no validation of the
smoothing factor at all.  For every smoothing factor — in range or not —
well-formed inputs (per-frame aggregation succeeds) are processed normally,
producing one position per frame, and no run ever fails with
`InvalidConfig`. -/
theorem C8_invalid_config_amended (α : ℚ) (vw vh : ℤ) (frames : List Shape)
    (motion : List (List Box)) :
    (List.Forall₂
        (fun f m => ∃ c, viewport_tracker.calculate_region_of_interest m f = .ok c)
        frames motion →
      ∃ ps, viewport_tracker.track_viewport frames motion (vw, vh) α = .ok ps ∧
        ps.length = frames.length) ∧
    viewport_tracker.track_viewport frames motion (vw, vh) α ≠ .error .invalidConfig := by
  constructor
  · intro h
    cases frames with
    | nil =>
      cases h
      exact ⟨[], rfl, rfl⟩
    | cons f0 fs =>
      obtain ⟨ps, hps, hlen⟩ := emaGo_total h (f0.2 / 2) (f0.1 / 2)
      exact ⟨ps, hps, hlen⟩
  · cases frames with
    | nil => simp [viewport_tracker.track_viewport]
    | cons f0 fs =>
      intro hcontra
      simp only [viewport_tracker.track_viewport] at hcontra
      rcases emaGo_err _ _ _ _ _ hcontra with h | h <;> exact PyErr.noConfusion h

/-- C8 amended witness: with the invalid smoothing factor `-1` and a
well-formed one-frame input the tracker still returns a one-position list. -/
theorem C8_invalid_config_amended_witness :
    List.Forall₂
      (fun f m => ∃ c, viewport_tracker.calculate_region_of_interest m f = .ok c)
      [((100 : ℤ), (100 : ℤ))] [[]] ∧
    (∃ ps, viewport_tracker.track_viewport [((100 : ℤ), (100 : ℤ))] [[]] (10, 10) (-1) =
      .ok ps ∧ ps.length = [((100 : ℤ), (100 : ℤ))].length) := by
  have hwf : List.Forall₂
      (fun f m => ∃ c, viewport_tracker.calculate_region_of_interest m f = .ok c)
      [((100 : ℤ), (100 : ℤ))] [[]] :=
    List.Forall₂.cons ⟨(50, 50, 0, 0), by decide⟩ List.Forall₂.nil
  exact ⟨hwf, (C8_invalid_config_amended (-1) 10 10 [((100 : ℤ), (100 : ℤ))] [[]]).1 hwf⟩

/-- C9 counterexample: with frame index `5` on a two-frame list — the current
frame is absent — `detect_motion` does not fail with `InvalidInput`; it
returns the normal empty result `[]`, even under an image-processing
primitive that would report a contour. -/
theorem C9_invalid_input_cex :
    motion_detector.detect_motion
        (fun _ _ _ => [({ x := 0, y := 0, w := 10, h := 10, area := 200 } :
            motion_detector.Contour)])
        [⟨((100 : ℤ), (100 : ℤ))⟩, ⟨((100 : ℤ), (100 : ℤ))⟩] 5 25 100 = .ok [] ∧
    motion_detector.detect_motion
        (fun _ _ _ => [({ x := 0, y := 0, w := 10, h := 10, area := 200 } :
            motion_detector.Contour)])
        [⟨((100 : ℤ), (100 : ℤ))⟩, ⟨((100 : ℤ), (100 : ℤ))⟩] 5 25 100 ≠
      .error .invalidInput := by
  constructor
  · rw [motion_detector.detect_motion, if_pos (by norm_num)]
  · rw [motion_detector.detect_motion, if_pos (by norm_num)]
    simp

/-- C9 amended: `detect_motion` never fails with `InvalidInput`.  When either
frame is absent (`frame_idx < 1` or `frame_idx ≥ len(frames)`) it returns the
normal empty result `[]`; when both frames exist but their dimensions differ
it surfaces the underlying image library's error (`cv2.error` from
`cv2.absdiff`), not an `InvalidInput`. -/
theorem C9_invalid_input_amended (fb : ℤ → motion_detector.Frame → motion_detector.Frame →
      List motion_detector.Contour)
    (frames : List motion_detector.Frame) (idx t : ℤ) (ma : ℚ) :
    ((idx < 1 ∨ (frames.length : ℤ) ≤ idx) →
      motion_detector.detect_motion fb frames idx t ma = .ok []) ∧
    (¬ (idx < 1 ∨ (frames.length : ℤ) ≤ idx) →
      (frames.getD idx.toNat ⟨(0, 0)⟩).shape ≠ (frames.getD (idx.toNat - 1) ⟨(0, 0)⟩).shape →
      motion_detector.detect_motion fb frames idx t ma = .error .cvError) ∧
    motion_detector.detect_motion fb frames idx t ma ≠ .error .invalidInput := by
  refine ⟨?_, ?_, ?_⟩
  · intro h
    rw [motion_detector.detect_motion, if_pos h]
  · intro h hdim
    rw [motion_detector.detect_motion, if_neg h]
    simp only [hdim]
    rw [if_pos]
    exact hdim
  · rw [motion_detector.detect_motion]
    split
    · simp
    · dsimp only
      split
      · simp only [ne_eq, Except.error.injEq]
        intro hcontra
        exact PyErr.noConfusion hcontra
      · simp

/-- C9 amended witness: the two behaviors at concrete inputs — index 5 on a
two-frame list returns `.ok []`; index 1 with mismatched 100×100 and 50×50
frames returns the library error. -/
theorem C9_invalid_input_amended_witness :
    (((5 : ℤ) < 1 ∨ (([(⟨((100 : ℤ), (100 : ℤ))⟩ : motion_detector.Frame),
        ⟨((100 : ℤ), (100 : ℤ))⟩].length : ℤ) ≤ 5)) ∧
      motion_detector.detect_motion (fun _ _ _ => [])
        [⟨((100 : ℤ), (100 : ℤ))⟩, ⟨((100 : ℤ), (100 : ℤ))⟩] 5 25 100 = .ok []) ∧
    motion_detector.detect_motion (fun _ _ _ => [])
        [⟨((100 : ℤ), (100 : ℤ))⟩, ⟨((50 : ℤ), (50 : ℤ))⟩] 1 25 100 = .error .cvError := by
  refine ⟨⟨by norm_num, ?_⟩, ?_⟩
  · exact (C9_invalid_input_amended (fun _ _ _ => [])
      [⟨((100 : ℤ), (100 : ℤ))⟩, ⟨((100 : ℤ), (100 : ℤ))⟩] 5 25 100).1 (by norm_num)
  · exact ((C9_invalid_input_amended (fun _ _ _ => [])
      [⟨((100 : ℤ), (100 : ℤ))⟩, ⟨((50 : ℤ), (50 : ℤ))⟩] 1 25 100).2).1
      (by norm_num) (by decide)

/-- C5 counterexample: on a single 100×100 frame whose motion box lies far
outside the frame, the ROI is `(1001, 1001)` but the produced position is the
clamped `(75, 75)` — the first-frame position equals the ROI only up to
boundary clamping, not exactly. -/
theorem C5_first_frame_cex :
    viewport_tracker_kalman.calculate_region_of_interest
        [({ x := 1000, y := 1000, w := 2, h := 2 } : Box)] ((100 : ℤ), (100 : ℤ)) =
      .ok (1001, 1001, 0, 0) ∧
    viewport_tracker_kalman.track_viewport [((100 : ℤ), (100 : ℤ))]
        [[({ x := 1000, y := 1000, w := 2, h := 2 } : Box)]] (50, 50) = .ok [(75, 75)] ∧
    ((75 : ℤ), (75 : ℤ)) ≠ ((1001 : ℤ), (1001 : ℤ)) := by
  have hroi : viewport_tracker_kalman.calculate_region_of_interest
      [({ x := 1000, y := 1000, w := 2, h := 2 } : Box)] ((100 : ℤ), (100 : ℤ)) =
      .ok (1001, 1001, 0, 0) := by
    rw [roi_kalman_eq]
    exact roi_eval _ 4 4004 4004 (by decide) (by decide) (by decide) (by decide)
      (pyInt_div_exact (by decide) (by decide)) (pyInt_div_exact (by decide) (by decide))
  refine ⟨hroi, ?_, by decide⟩
  have h1 : viewport_tracker_kalman.kalGo 100 100 25 25 [((100 : ℤ), (100 : ℤ))]
      [[({ x := 1000, y := 1000, w := 2, h := 2 } : Box)]]
      viewport_tracker_kalman.mk_kalman_filter true = .ok [(75, 75)] := by
    rw [kalGo_cons hroi, kalGo_nil]
    simp only [Except.map, kalStep_first_x0, kalStep_first_x1, pyInt_intCast]
    decide
  exact h1

/-- C5 amended: for a single-frame sequence, the position produced by the
Kalman `track_viewport` equals the frame's ROI point exactly, PROVIDED the
ROI lies inside the clamp bounds (the reported position is always clamped;
an out-of-bounds ROI is moved to the boundary).  The filter does run predict
and update on that first frame, but with zero velocity and zero innovation
they leave the initialized position unchanged. -/
theorem C5_first_frame_amended (H W vw vh cx cy u v : ℤ) (m : List Box)
    (hroi : viewport_tracker_kalman.calculate_region_of_interest m (H, W) =
      .ok (cx, cy, u, v))
    (hx1 : vw / 2 ≤ cx) (hx2 : cx ≤ W - vw / 2)
    (hy1 : vh / 2 ≤ cy) (hy2 : cy ≤ H - vh / 2) :
    viewport_tracker_kalman.track_viewport [(H, W)] [m] (vw, vh) = .ok [(cx, cy)] := by
  have h1 : viewport_tracker_kalman.kalGo W H (vw / 2) (vh / 2) [(H, W)] [m]
      viewport_tracker_kalman.mk_kalman_filter true = .ok [(cx, cy)] := by
    rw [kalGo_cons hroi, kalGo_nil]
    simp only [Except.map, kalStep_first_x0, kalStep_first_x1, pyInt_intCast]
    rw [clamp_eq_self hx1 hx2, clamp_eq_self hy1 hy2]
  exact h1

/-- C5 amended witness: one 100×100 frame, viewport 10×10, one 2×2 motion box
centered at `(60, 60)`; the ROI `(60, 60)` is inside the bounds `[5, 95]` and
the produced position is exactly `(60, 60)`. -/
theorem C5_first_frame_amended_witness :
    viewport_tracker_kalman.calculate_region_of_interest
        [({ x := 59, y := 59, w := 2, h := 2 } : Box)] ((100 : ℤ), (100 : ℤ)) =
      .ok (60, 60, 0, 0) ∧
    ((10 : ℤ) / 2 ≤ 60 ∧ (60 : ℤ) ≤ 100 - 10 / 2) ∧
    viewport_tracker_kalman.track_viewport [((100 : ℤ), (100 : ℤ))]
        [[({ x := 59, y := 59, w := 2, h := 2 } : Box)]] (10, 10) = .ok [(60, 60)] := by
  have hroi : viewport_tracker_kalman.calculate_region_of_interest
      [({ x := 59, y := 59, w := 2, h := 2 } : Box)] ((100 : ℤ), (100 : ℤ)) =
      .ok (60, 60, 0, 0) := by
    rw [roi_kalman_eq]
    exact roi_eval _ 4 240 240 (by decide) (by decide) (by decide) (by decide)
      (pyInt_div_exact (by decide) (by decide)) (pyInt_div_exact (by decide) (by decide))
  exact ⟨hroi, ⟨by norm_num, by norm_num⟩,
    C5_first_frame_amended 100 100 10 10 60 60 0 0 _ hroi
      (by norm_num) (by norm_num) (by norm_num) (by norm_num)⟩

/-- Unrolling lemma for one iteration of the unclamped Kalman loop. -/
lemma kalGoRaw_cons {f : Shape} {fs : List Shape} {m : List Box}
    {ms : List (List Box)} {kf : viewport_tracker_kalman.KalmanState} {first : Bool}
    {cx cy u v : ℤ}
    (hroi : viewport_tracker_kalman.calculate_region_of_interest m f = .ok (cx, cy, u, v)) :
    viewport_tracker_kalman.kalGoRaw (f :: fs) (m :: ms) kf first =
      Except.map
        (fun rest =>
          (pyInt ((viewport_tracker_kalman.kalStep kf first cx cy).x 0),
           pyInt ((viewport_tracker_kalman.kalStep kf first cx cy).x 1)) :: rest)
        (viewport_tracker_kalman.kalGoRaw fs ms
          (viewport_tracker_kalman.kalStep kf first cx cy) false) := by
  simp only [viewport_tracker_kalman.kalGoRaw, hroi]
  split
  · rename_i h
    rw [h]
    rfl
  · rename_i rest h
    rw [h]
    rfl

/-- The clamped Kalman loop is the clamp of the unclamped loop: the filter
state threading is identical, and the bounds touch only the emitted pairs. -/
lemma kalGo_raw_factor (fw fh hw hh : ℤ) :
    ∀ (fs : List Shape) (ms : List (List Box)) (kf : viewport_tracker_kalman.KalmanState)
      (first : Bool),
      viewport_tracker_kalman.kalGo fw fh hw hh fs ms kf first =
        Except.map
          (List.map (fun p : ℤ × ℤ => (max hw (min (fw - hw) p.1), max hh (min (fh - hh) p.2))))
          (viewport_tracker_kalman.kalGoRaw fs ms kf first)
  | [], ms, kf, first => rfl
  | f :: fs, [], kf, first => rfl
  | f :: fs, m :: ms, kf, first => by
      cases hroi : viewport_tracker_kalman.calculate_region_of_interest m f with
      | error e =>
        simp only [viewport_tracker_kalman.kalGo, viewport_tracker_kalman.kalGoRaw, hroi]
        rfl
      | ok val =>
        obtain ⟨cx, cy, u, v⟩ := val
        rw [kalGo_cons hroi, kalGoRaw_cons hroi,
          kalGo_raw_factor fw fh hw hh fs ms (viewport_tracker_kalman.kalStep kf first cx cy)
            false]
        cases viewport_tracker_kalman.kalGoRaw fs ms
            (viewport_tracker_kalman.kalStep kf first cx cy) false with
        | error e => rfl
        | ok rest => rfl

/-- C10: in the Kalman `track_viewport`, boundary clamping touches only the
reported output: the whole run equals the clamp (with the first frame's
bounds) mapped over `raw_positions`, a function that takes no viewport size
and no clamp bounds and threads exactly the same filter states, which
therefore depend only on the ROI observation sequence. -/
theorem C10_clamp_only_reported (f0 : Shape) (fs : List Shape)
    (motion : List (List Box)) (vw vh : ℤ) :
    viewport_tracker_kalman.track_viewport (f0 :: fs) motion (vw, vh) =
      Except.map
        (List.map (fun p : ℤ × ℤ =>
          (max (vw / 2) (min (f0.2 - vw / 2) p.1),
           max (vh / 2) (min (f0.1 - vh / 2) p.2))))
        (viewport_tracker_kalman.raw_positions (f0 :: fs) motion) := by
  simp only [viewport_tracker_kalman.track_viewport, viewport_tracker_kalman.raw_positions]
  exact kalGo_raw_factor f0.2 f0.1 (vw / 2) (vh / 2) (f0 :: fs) motion
    viewport_tracker_kalman.mk_kalman_filter true

/-- Unrolling lemma for one iteration of the spec-described bypass loop. -/
lemma bypassGo_cons {fw fh hw hh : ℤ} {f : Shape} {fs : List Shape} {m : List Box}
    {ms : List (List Box)} {kf : viewport_tracker_kalman.KalmanState} {first : Bool}
    {cx cy u v : ℤ}
    (hroi : viewport_tracker_kalman.calculate_region_of_interest m f = .ok (cx, cy, u, v)) :
    kalman_bypass_spec.bypassGo fw fh hw hh (f :: fs) (m :: ms) kf first =
      Except.map
        (fun rest =>
          (max hw (min (fw - hw) (pyInt ((kalman_bypass_spec.bypassStep kf first cx cy).x 0))),
           max hh (min (fh - hh) (pyInt ((kalman_bypass_spec.bypassStep kf first cx cy).x 1))))
          :: rest)
        (kalman_bypass_spec.bypassGo fw fh hw hh fs ms
          (kalman_bypass_spec.bypassStep kf first cx cy) false) := by
  simp only [kalman_bypass_spec.bypassGo, hroi]
  split
  · rename_i h
    rw [h]
    rfl
  · rename_i rest h
    rw [h]
    rfl

/-- The exact filter covariance after the source's first-frame cycle
(initialize, then predict and update once); computed from
`P0 = 1000 I₄`, `Q = 0.03 I₄`, `R = 5 I₂` through the Joseph-form update. -/
def kalman_P_after_first : Mat 4 4 :=
  row4 (vec4 (1000015 / 200503) 0 (500000 / 200503) 0)
    (vec4 0 (1000015 / 200503) 0 (500000 / 200503))
    (vec4 (500000 / 200503) 0 (10050901509 / 20050300) 0)
    (vec4 0 (500000 / 200503) 0 (10050901509 / 20050300))

lemma bypassGo_nil (fw fh hw hh : ℤ) (ms : List (List Box))
    (kf : viewport_tracker_kalman.KalmanState) (first : Bool) :
    kalman_bypass_spec.bypassGo fw fh hw hh [] ms kf first = .ok [] := rfl

set_option maxHeartbeats 4000000 in
/-- C4 counterexample: the source and the specification's bypass description
diverge.  On two 400×400 frames with ROIs `(200,200)` then `(339,339)` and a
2×2 viewport, the source (which predicts and updates on the first frame too)
reports `(337, 337)` on frame 1, while the described bypass cycle (first
frame initializes only) reports `(338, 338)`: running predict/update on
frame 0 shrinks the covariance and lowers the gain of frame 1. -/
theorem C4_first_frame_cycle_cex :
    viewport_tracker_kalman.track_viewport [((400 : ℤ), (400 : ℤ)), (400, 400)]
        [[], [({ x := 338, y := 338, w := 2, h := 2 } : Box)]] (2, 2) =
      .ok [(200, 200), (337, 337)] ∧
    kalman_bypass_spec.track_viewport [((400 : ℤ), (400 : ℤ)), (400, 400)]
        [[], [({ x := 338, y := 338, w := 2, h := 2 } : Box)]] (2, 2) =
      .ok [(200, 200), (338, 338)] ∧
    viewport_tracker_kalman.track_viewport [((400 : ℤ), (400 : ℤ)), (400, 400)]
        [[], [({ x := 338, y := 338, w := 2, h := 2 } : Box)]] (2, 2) ≠
      kalman_bypass_spec.track_viewport [((400 : ℤ), (400 : ℤ)), (400, 400)]
        [[], [({ x := 338, y := 338, w := 2, h := 2 } : Box)]] (2, 2) := by
  have hroi0 : viewport_tracker_kalman.calculate_region_of_interest []
      ((400 : ℤ), (400 : ℤ)) = .ok (200, 200, 0, 0) := by decide
  have hroi1 : viewport_tracker_kalman.calculate_region_of_interest
      [({ x := 338, y := 338, w := 2, h := 2 } : Box)] ((400 : ℤ), (400 : ℤ)) =
      .ok (339, 339, 0, 0) := by
    rw [roi_kalman_eq]
    exact roi_eval _ 4 1356 1356 (by decide) (by decide) (by decide) (by decide)
      (pyInt_div_exact (by decide) (by decide)) (pyInt_div_exact (by decide) (by decide))
  have hx : (viewport_tracker_kalman.kalStep viewport_tracker_kalman.mk_kalman_filter
      true 200 200).x = vec4 200 200 0 0 := by
    funext i
    fin_cases i <;>
      norm_num [viewport_tracker_kalman.kalStep, viewport_tracker_kalman.kalman_update,
        viewport_tracker_kalman.kalman_predict, viewport_tracker_kalman.mk_kalman_filter,
        viewport_tracker_kalman.Fmat, viewport_tracker_kalman.Hmat,
        viewport_tracker_kalman.Qmat, viewport_tracker_kalman.Rmat,
        viewport_tracker_kalman.id4, mulV4, mulV2, mulX4, mulX2, matAdd, matT, inv2,
        vec4, vec2, row4, row2]
  have hP : (viewport_tracker_kalman.kalStep viewport_tracker_kalman.mk_kalman_filter
      true 200 200).P = kalman_P_after_first := by
    funext i j
    fin_cases i <;> fin_cases j <;>
      norm_num [viewport_tracker_kalman.kalStep, viewport_tracker_kalman.kalman_update,
        viewport_tracker_kalman.kalman_predict, viewport_tracker_kalman.mk_kalman_filter,
        viewport_tracker_kalman.Fmat, viewport_tracker_kalman.Hmat,
        viewport_tracker_kalman.Qmat, viewport_tracker_kalman.Rmat,
        viewport_tracker_kalman.id4, mulV4, mulV2, mulX4, mulX2, matAdd, matT, inv2,
        vec4, vec2, row4, row2, kalman_P_after_first]
  have hstate : viewport_tracker_kalman.kalStep viewport_tracker_kalman.mk_kalman_filter
      true 200 200 = ⟨vec4 200 200 0 0, kalman_P_after_first⟩ := by
    calc viewport_tracker_kalman.kalStep viewport_tracker_kalman.mk_kalman_filter true 200 200
        = ⟨(viewport_tracker_kalman.kalStep viewport_tracker_kalman.mk_kalman_filter
            true 200 200).x,
           (viewport_tracker_kalman.kalStep viewport_tracker_kalman.mk_kalman_filter
            true 200 200).P⟩ := rfl
      _ = ⟨vec4 200 200 0 0, kalman_P_after_first⟩ := by rw [hx, hP]
  have hval2x : (viewport_tracker_kalman.kalStep
      ⟨vec4 200 200 0 0, kalman_P_after_first⟩ false 339 339).x 0 =
      1747655165801 / 5175878009 := by
    norm_num [viewport_tracker_kalman.kalStep, viewport_tracker_kalman.kalman_update,
      viewport_tracker_kalman.kalman_predict, viewport_tracker_kalman.Fmat,
      viewport_tracker_kalman.Hmat, viewport_tracker_kalman.Qmat,
      viewport_tracker_kalman.Rmat, viewport_tracker_kalman.id4, mulV4, mulV2, mulX4,
      mulX2, matAdd, matT, inv2, vec4, vec2, row4, row2, kalman_P_after_first]
  have hval2y : (viewport_tracker_kalman.kalStep
      ⟨vec4 200 200 0 0, kalman_P_after_first⟩ false 339 339).x 1 =
      1747655165801 / 5175878009 := by
    norm_num [viewport_tracker_kalman.kalStep, viewport_tracker_kalman.kalman_update,
      viewport_tracker_kalman.kalman_predict, viewport_tracker_kalman.Fmat,
      viewport_tracker_kalman.Hmat, viewport_tracker_kalman.Qmat,
      viewport_tracker_kalman.Rmat, viewport_tracker_kalman.id4, mulV4, mulV2, mulX4,
      mulX2, matAdd, matT, inv2, vec4, vec2, row4, row2, kalman_P_after_first]
  have hpx2 : pyInt ((viewport_tracker_kalman.kalStep
      ⟨vec4 200 200 0 0, kalman_P_after_first⟩ false 339 339).x 0) = 337 := by
    rw [hval2x]
    exact pyInt_eq_of (by norm_num) (by norm_num) (by norm_num)
  have hpy2 : pyInt ((viewport_tracker_kalman.kalStep
      ⟨vec4 200 200 0 0, kalman_P_after_first⟩ false 339 339).x 1) = 337 := by
    rw [hval2y]
    exact pyInt_eq_of (by norm_num) (by norm_num) (by norm_num)
  have hpx1 : pyInt ((viewport_tracker_kalman.kalStep
      viewport_tracker_kalman.mk_kalman_filter true 200 200).x 0) = 200 := by
    rw [kalStep_first_x0, pyInt_intCast]
  have hpy1 : pyInt ((viewport_tracker_kalman.kalStep
      viewport_tracker_kalman.mk_kalman_filter true 200 200).x 1) = 200 := by
    rw [kalStep_first_x1, pyInt_intCast]
  have hcode : viewport_tracker_kalman.kalGo 400 400 1 1
      [((400 : ℤ), (400 : ℤ)), (400, 400)]
      [[], [({ x := 338, y := 338, w := 2, h := 2 } : Box)]]
      viewport_tracker_kalman.mk_kalman_filter true = .ok [(200, 200), (337, 337)] := by
    rw [kalGo_cons hroi0, hpx1, hpy1, hstate, kalGo_cons hroi1, hpx2, hpy2, kalGo_nil]
    decide
  have hpb1x : pyInt ((kalman_bypass_spec.bypassStep
      viewport_tracker_kalman.mk_kalman_filter true 200 200).x 0) = 200 := by
    have h0 : (kalman_bypass_spec.bypassStep viewport_tracker_kalman.mk_kalman_filter
        true 200 200).x 0 = ((200 : ℤ) : ℚ) := by
      norm_num [kalman_bypass_spec.bypassStep, vec4]
    rw [h0, pyInt_intCast]
  have hpb1y : pyInt ((kalman_bypass_spec.bypassStep
      viewport_tracker_kalman.mk_kalman_filter true 200 200).x 1) = 200 := by
    have h0 : (kalman_bypass_spec.bypassStep viewport_tracker_kalman.mk_kalman_filter
        true 200 200).x 1 = ((200 : ℤ) : ℚ) := by
      norm_num [kalman_bypass_spec.bypassStep, vec4]
    rw [h0, pyInt_intCast]
  have hb2x : (kalman_bypass_spec.bypassStep
      (kalman_bypass_spec.bypassStep viewport_tracker_kalman.mk_kalman_filter true 200 200)
      false 339 339).x 0 = 67901017 / 200503 := by
    norm_num [kalman_bypass_spec.bypassStep, viewport_tracker_kalman.kalman_update,
      viewport_tracker_kalman.kalman_predict, viewport_tracker_kalman.mk_kalman_filter,
      viewport_tracker_kalman.Fmat, viewport_tracker_kalman.Hmat,
      viewport_tracker_kalman.Qmat, viewport_tracker_kalman.Rmat,
      viewport_tracker_kalman.id4, mulV4, mulV2, mulX4, mulX2, matAdd, matT, inv2,
      vec4, vec2, row4, row2]
  have hb2y : (kalman_bypass_spec.bypassStep
      (kalman_bypass_spec.bypassStep viewport_tracker_kalman.mk_kalman_filter true 200 200)
      false 339 339).x 1 = 67901017 / 200503 := by
    norm_num [kalman_bypass_spec.bypassStep, viewport_tracker_kalman.kalman_update,
      viewport_tracker_kalman.kalman_predict, viewport_tracker_kalman.mk_kalman_filter,
      viewport_tracker_kalman.Fmat, viewport_tracker_kalman.Hmat,
      viewport_tracker_kalman.Qmat, viewport_tracker_kalman.Rmat,
      viewport_tracker_kalman.id4, mulV4, mulV2, mulX4, mulX2, matAdd, matT, inv2,
      vec4, vec2, row4, row2]
  have hpb2x : pyInt ((kalman_bypass_spec.bypassStep
      (kalman_bypass_spec.bypassStep viewport_tracker_kalman.mk_kalman_filter true 200 200)
      false 339 339).x 0) = 338 := by
    rw [hb2x]
    exact pyInt_eq_of (by norm_num) (by norm_num) (by norm_num)
  have hpb2y : pyInt ((kalman_bypass_spec.bypassStep
      (kalman_bypass_spec.bypassStep viewport_tracker_kalman.mk_kalman_filter true 200 200)
      false 339 339).x 1) = 338 := by
    rw [hb2y]
    exact pyInt_eq_of (by norm_num) (by norm_num) (by norm_num)
  have hbyp : kalman_bypass_spec.bypassGo 400 400 1 1
      [((400 : ℤ), (400 : ℤ)), (400, 400)]
      [[], [({ x := 338, y := 338, w := 2, h := 2 } : Box)]]
      viewport_tracker_kalman.mk_kalman_filter true = .ok [(200, 200), (338, 338)] := by
    rw [bypassGo_cons hroi0, hpb1x, hpb1y, bypassGo_cons hroi1, hpb2x, hpb2y, bypassGo_nil]
    decide
  refine ⟨hcode, hbyp, ?_⟩
  intro hcontra
  rw [show viewport_tracker_kalman.track_viewport [((400 : ℤ), (400 : ℤ)), (400, 400)]
      [[], [({ x := 338, y := 338, w := 2, h := 2 } : Box)]] (2, 2) =
      .ok [(200, 200), (337, 337)] from hcode,
    show kalman_bypass_spec.track_viewport [((400 : ℤ), (400 : ℤ)), (400, 400)]
      [[], [({ x := 338, y := 338, w := 2, h := 2 } : Box)]] (2, 2) =
      .ok [(200, 200), (338, 338)] from hbyp] at hcontra
  exact absurd hcontra (by decide)

set_option maxHeartbeats 4000000 in
/-- C4 amended: on the very first frame the filter state's position IS
initialized to `[cx, cy, 0, 0]` from that frame's ROI, but the predict and
update steps are then executed on that same first frame as well (they run on
every frame).  Because the initialized velocity is zero and the first-frame
innovation is zero, the state vector after frame 0 is still
`[cx, cy, 0, 0]`; the covariance, however, is changed by the first-frame
predict/update to `kalman_P_after_first`, which differs from the freshly
initialized covariance — so the predict/update cycle is not bypassed. -/
theorem C4_first_frame_cycle_amended (cx cy : ℤ) :
    (viewport_tracker_kalman.kalStep viewport_tracker_kalman.mk_kalman_filter
        true cx cy).x = vec4 (cx : ℚ) (cy : ℚ) 0 0 ∧
    (viewport_tracker_kalman.kalStep viewport_tracker_kalman.mk_kalman_filter
        true cx cy).P = kalman_P_after_first ∧
    kalman_P_after_first ≠ viewport_tracker_kalman.mk_kalman_filter.P := by
  refine ⟨?_, ?_, ?_⟩
  · funext i
    fin_cases i <;>
      norm_num [viewport_tracker_kalman.kalStep, viewport_tracker_kalman.kalman_update,
        viewport_tracker_kalman.kalman_predict, viewport_tracker_kalman.mk_kalman_filter,
        viewport_tracker_kalman.Fmat, viewport_tracker_kalman.Hmat,
        viewport_tracker_kalman.Qmat, viewport_tracker_kalman.Rmat,
        viewport_tracker_kalman.id4, mulV4, mulV2, mulX4, mulX2, matAdd, matT, inv2,
        vec4, vec2, row4, row2]
  · funext i j
    fin_cases i <;> fin_cases j <;>
      norm_num [viewport_tracker_kalman.kalStep, viewport_tracker_kalman.kalman_update,
        viewport_tracker_kalman.kalman_predict, viewport_tracker_kalman.mk_kalman_filter,
        viewport_tracker_kalman.Fmat, viewport_tracker_kalman.Hmat,
        viewport_tracker_kalman.Qmat, viewport_tracker_kalman.Rmat,
        viewport_tracker_kalman.id4, mulV4, mulV2, mulX4, mulX2, matAdd, matT, inv2,
        vec4, vec2, row4, row2, kalman_P_after_first]
  · intro hcontra
    have h00 := congrFun (congrFun hcontra 0) 0
    norm_num [kalman_P_after_first, viewport_tracker_kalman.mk_kalman_filter,
      vec4, row4] at h00

/-- C6 counterexample: integer truncation makes the EMA trajectory stick
strictly short of a constant ROI.  With constant ROI `(60, 60)` on six
100×100 frames, viewport 2×2 and the default smoothing factor `3/10`, the
positions are `53, 55, 56, 57, 57, 57`: the trajectory reaches the fixed
point `57` (where `int(0.3·60 + 0.7·57) = int(57.9) = 57`) and never reaches
`(60, 60)`. -/
theorem C6_reaches_cex :
    viewport_tracker.track_viewport
        [((100 : ℤ), (100 : ℤ)), (100, 100), (100, 100), (100, 100), (100, 100), (100, 100)]
        [[({ x := 59, y := 59, w := 2, h := 2 } : Box)],
         [({ x := 59, y := 59, w := 2, h := 2 } : Box)],
         [({ x := 59, y := 59, w := 2, h := 2 } : Box)],
         [({ x := 59, y := 59, w := 2, h := 2 } : Box)],
         [({ x := 59, y := 59, w := 2, h := 2 } : Box)],
         [({ x := 59, y := 59, w := 2, h := 2 } : Box)]] (2, 2) (3/10) =
      .ok [(53, 53), (55, 55), (56, 56), (57, 57), (57, 57), (57, 57)] ∧
    ((60 : ℤ), (60 : ℤ)) ∉
      [((53 : ℤ), (53 : ℤ)), (55, 55), (56, 56), (57, 57), (57, 57), (57, 57)] ∧
    viewport_tracker.calculate_region_of_interest
        [({ x := 59, y := 59, w := 2, h := 2 } : Box)] ((100 : ℤ), (100 : ℤ)) =
      .ok (60, 60, 0, 0) := by
  have hroi : viewport_tracker.calculate_region_of_interest
      [({ x := 59, y := 59, w := 2, h := 2 } : Box)] ((100 : ℤ), (100 : ℤ)) =
      .ok (60, 60, 0, 0) :=
    roi_eval _ 4 240 240 (by decide) (by decide) (by decide) (by decide)
      (pyInt_div_exact (by decide) (by decide)) (pyInt_div_exact (by decide) (by decide))
  have h50 : pyInt ((3/10 : ℚ) * ((60 : ℤ) : ℚ) + (1 - (3/10 : ℚ)) * ((50 : ℤ) : ℚ)) = 53 := by
    have harg : ((3/10 : ℚ) * ((60 : ℤ) : ℚ) + (1 - (3/10 : ℚ)) * ((50 : ℤ) : ℚ)) =
        ((53 : ℤ) : ℚ) := by push_cast; norm_num
    rw [harg, pyInt_intCast]
  have h53 : pyInt ((3/10 : ℚ) * ((60 : ℤ) : ℚ) + (1 - (3/10 : ℚ)) * ((53 : ℤ) : ℚ)) = 55 :=
    pyInt_eq_of (by norm_num) (by push_cast; norm_num) (by push_cast; norm_num)
  have h55 : pyInt ((3/10 : ℚ) * ((60 : ℤ) : ℚ) + (1 - (3/10 : ℚ)) * ((55 : ℤ) : ℚ)) = 56 :=
    pyInt_eq_of (by norm_num) (by push_cast; norm_num) (by push_cast; norm_num)
  have h56 : pyInt ((3/10 : ℚ) * ((60 : ℤ) : ℚ) + (1 - (3/10 : ℚ)) * ((56 : ℤ) : ℚ)) = 57 :=
    pyInt_eq_of (by norm_num) (by push_cast; norm_num) (by push_cast; norm_num)
  have h57 : pyInt ((3/10 : ℚ) * ((60 : ℤ) : ℚ) + (1 - (3/10 : ℚ)) * ((57 : ℤ) : ℚ)) = 57 :=
    pyInt_eq_of (by norm_num) (by push_cast; norm_num) (by push_cast; norm_num)
  have hc53 : max (1 : ℤ) (min (100 - 1) 53) = 53 := by decide
  have hc55 : max (1 : ℤ) (min (100 - 1) 55) = 55 := by decide
  have hc56 : max (1 : ℤ) (min (100 - 1) 56) = 56 := by decide
  have hc57 : max (1 : ℤ) (min (100 - 1) 57) = 57 := by decide
  have e1 : viewport_tracker.emaGo (3/10 : ℚ) 1 1 [((100 : ℤ), (100 : ℤ))]
      [[({ x := 59, y := 59, w := 2, h := 2 } : Box)]] 57 57 = .ok [(57, 57)] := by
    rw [emaGo_cons hroi, h57]
    dsimp only
    rw [hc57, emaGo_nil]
    rfl
  have e2 : viewport_tracker.emaGo (3/10 : ℚ) 1 1
      [((100 : ℤ), (100 : ℤ)), (100, 100)]
      [[({ x := 59, y := 59, w := 2, h := 2 } : Box)],
       [({ x := 59, y := 59, w := 2, h := 2 } : Box)]] 57 57 = .ok [(57, 57), (57, 57)] := by
    rw [emaGo_cons hroi, h57]
    dsimp only
    rw [hc57, e1]
    rfl
  have e3 : viewport_tracker.emaGo (3/10 : ℚ) 1 1
      [((100 : ℤ), (100 : ℤ)), (100, 100), (100, 100)]
      [[({ x := 59, y := 59, w := 2, h := 2 } : Box)],
       [({ x := 59, y := 59, w := 2, h := 2 } : Box)],
       [({ x := 59, y := 59, w := 2, h := 2 } : Box)]] 56 56 =
      .ok [(57, 57), (57, 57), (57, 57)] := by
    rw [emaGo_cons hroi, h56]
    dsimp only
    rw [hc57, e2]
    rfl
  have e4 : viewport_tracker.emaGo (3/10 : ℚ) 1 1
      [((100 : ℤ), (100 : ℤ)), (100, 100), (100, 100), (100, 100)]
      [[({ x := 59, y := 59, w := 2, h := 2 } : Box)],
       [({ x := 59, y := 59, w := 2, h := 2 } : Box)],
       [({ x := 59, y := 59, w := 2, h := 2 } : Box)],
       [({ x := 59, y := 59, w := 2, h := 2 } : Box)]] 55 55 =
      .ok [(56, 56), (57, 57), (57, 57), (57, 57)] := by
    rw [emaGo_cons hroi, h55]
    dsimp only
    rw [hc56, e3]
    rfl
  have e5 : viewport_tracker.emaGo (3/10 : ℚ) 1 1
      [((100 : ℤ), (100 : ℤ)), (100, 100), (100, 100), (100, 100), (100, 100)]
      [[({ x := 59, y := 59, w := 2, h := 2 } : Box)],
       [({ x := 59, y := 59, w := 2, h := 2 } : Box)],
       [({ x := 59, y := 59, w := 2, h := 2 } : Box)],
       [({ x := 59, y := 59, w := 2, h := 2 } : Box)],
       [({ x := 59, y := 59, w := 2, h := 2 } : Box)]] 53 53 =
      .ok [(55, 55), (56, 56), (57, 57), (57, 57), (57, 57)] := by
    rw [emaGo_cons hroi, h53]
    dsimp only
    rw [hc55, e4]
    rfl
  have e6 : viewport_tracker.emaGo (3/10 : ℚ) 1 1
      [((100 : ℤ), (100 : ℤ)), (100, 100), (100, 100), (100, 100), (100, 100), (100, 100)]
      [[({ x := 59, y := 59, w := 2, h := 2 } : Box)],
       [({ x := 59, y := 59, w := 2, h := 2 } : Box)],
       [({ x := 59, y := 59, w := 2, h := 2 } : Box)],
       [({ x := 59, y := 59, w := 2, h := 2 } : Box)],
       [({ x := 59, y := 59, w := 2, h := 2 } : Box)],
       [({ x := 59, y := 59, w := 2, h := 2 } : Box)]] 50 50 =
      .ok [(53, 53), (55, 55), (56, 56), (57, 57), (57, 57), (57, 57)] := by
    rw [emaGo_cons hroi, h50]
    dsimp only
    rw [hc53, e5]
    rfl
  exact ⟨e6, by decide, hroi⟩

/-- C6 amended: for a constant in-bounds ROI `(cx, cy)` observed on every
frame, the EMA positions move monotonically in absolute distance toward
`(cx, cy)` in each coordinate (each position no farther than the previous
one, starting from the initial frame center), and with smoothing factor `1`
every produced position equals `(cx, cy)` exactly.  The trajectory need NOT
reach `(cx, cy)` for smoothing factors below `1`: integer truncation can
make it stick at a fixed point short of the ROI. -/
theorem C6_ema_damping_amended (H W vw vh cx cy : ℤ) (α : ℚ) (m : List Box) (n : ℕ)
    (hα0 : 0 < α) (hα1 : α ≤ 1)
    (hroi : viewport_tracker.calculate_region_of_interest m (H, W) = .ok (cx, cy, 0, 0))
    (hvw : vw ≤ W) (hvh : vh ≤ H)
    (hx1 : vw / 2 ≤ cx) (hx2 : cx ≤ W - vw / 2)
    (hy1 : vh / 2 ≤ cy) (hy2 : cy ≤ H - vh / 2) :
    ∃ ps, viewport_tracker.track_viewport (List.replicate n (H, W)) (List.replicate n m)
        (vw, vh) α = .ok ps ∧
      List.Chain' (fun a b : ℤ × ℤ => |b.1 - cx| ≤ |a.1 - cx| ∧ |b.2 - cy| ≤ |a.2 - cy|)
        ((W / 2, H / 2) :: ps) ∧
      (α = 1 → ∀ p ∈ ps, p = (cx, cy)) := by
  cases n with
  | zero => exact ⟨[], rfl, by simp, by simp⟩
  | succ n =>
    have hstart1 : vw / 2 ≤ W / 2 := by omega
    have hstart2 : W / 2 ≤ W - vw / 2 := by omega
    have hstart3 : vh / 2 ≤ H / 2 := by omega
    have hstart4 : H / 2 ≤ H - vh / 2 := by omega
    obtain ⟨ps, hps, hchain, hone⟩ := emaGo_const_chain hα0 hα1 hroi hx1 hx2 hy1 hy2
      (n + 1) (W / 2) (H / 2) hstart1 hstart2 hstart3 hstart4
    refine ⟨ps, ?_, hchain, hone⟩
    rw [List.replicate_succ, viewport_tracker.track_viewport]
    dsimp only
    rw [← List.replicate_succ]
    exact hps

/-- C6 amended witness: constant ROI `(60, 60)` on two 100×100 frames,
viewport 2×2, smoothing factor `1/2`; the run succeeds with a trajectory
monotonically approaching `(60, 60)`. -/
theorem C6_ema_damping_amended_witness :
    (0 : ℚ) < 1/2 ∧ (1/2 : ℚ) ≤ 1 ∧
    viewport_tracker.calculate_region_of_interest
        [({ x := 59, y := 59, w := 2, h := 2 } : Box)] ((100 : ℤ), (100 : ℤ)) =
      .ok (60, 60, 0, 0) ∧
    ((2 : ℤ) ≤ 100 ∧ (2 : ℤ) / 2 ≤ 60 ∧ (60 : ℤ) ≤ 100 - 2 / 2) ∧
    (∃ ps, viewport_tracker.track_viewport
        (List.replicate 2 ((100 : ℤ), (100 : ℤ)))
        (List.replicate 2 [({ x := 59, y := 59, w := 2, h := 2 } : Box)]) (2, 2) (1/2) =
        .ok ps ∧
      List.Chain' (fun a b : ℤ × ℤ => |b.1 - 60| ≤ |a.1 - 60| ∧ |b.2 - 60| ≤ |a.2 - 60|)
        (((100 : ℤ) / 2, (100 : ℤ) / 2) :: ps) ∧
      ((1/2 : ℚ) = 1 → ∀ p ∈ ps, p = (60, 60))) := by
  have hroi : viewport_tracker.calculate_region_of_interest
      [({ x := 59, y := 59, w := 2, h := 2 } : Box)] ((100 : ℤ), (100 : ℤ)) =
      .ok (60, 60, 0, 0) :=
    roi_eval _ 4 240 240 (by decide) (by decide) (by decide) (by decide)
      (pyInt_div_exact (by decide) (by decide)) (pyInt_div_exact (by decide) (by decide))
  exact ⟨by norm_num, by norm_num, hroi, ⟨by norm_num, by norm_num, by norm_num⟩,
    C6_ema_damping_amended 100 100 2 2 60 60 (1/2)
      [({ x := 59, y := 59, w := 2, h := 2 } : Box)] 2
      (by norm_num) (by norm_num) hroi (by norm_num) (by norm_num)
      (by norm_num) (by norm_num) (by norm_num) (by norm_num)⟩

/-- C3 counterexample: on the non-empty all-zero-area list `[(0,0,0,0)]` the
aggregator does not fail with the specification's `DegenerateAggregation`; it
raises the division-by-zero error itself (in both embeddings). -/
theorem C3_degenerate_cex :
    viewport_tracker.calculate_region_of_interest
        [({ x := 0, y := 0, w := 0, h := 0 } : Box)] (10, 10) ≠
      .error .degenerateAggregation ∧
    viewport_tracker_kalman.calculate_region_of_interest
        [({ x := 0, y := 0, w := 0, h := 0 } : Box)] (10, 10) ≠
      .error .degenerateAggregation ∧
    viewport_tracker.calculate_region_of_interest
        [({ x := 0, y := 0, w := 0, h := 0 } : Box)] (10, 10) =
      .error .zeroDivisionError := by
  refine ⟨?_, ?_, ?_⟩ <;> decide

/-- C3 amended: for every non-empty motion-box list with zero total area,
both `calculate_region_of_interest` embeddings fail — by actually reaching
the division by zero, so the error is Python's uncaught `ZeroDivisionError`
rather than a `DegenerateAggregation` error — and no point is returned. -/
theorem C3_degenerate_amended (boxes : List Box) (s : Shape) (hne : boxes ≠ [])
    (h : totalArea boxes = 0) :
    viewport_tracker.calculate_region_of_interest boxes s = .error .zeroDivisionError ∧
    viewport_tracker_kalman.calculate_region_of_interest boxes s =
      .error .zeroDivisionError := by
  rw [roi_kalman_eq]
  exact ⟨roi_zero_total s hne h, roi_zero_total s hne h⟩

/-- C3 amended witness: the hypotheses and conclusion at the concrete list
`[(5, 5, 0, 3)]` (a zero-area box). -/
theorem C3_degenerate_amended_witness :
    ([({ x := 5, y := 5, w := 0, h := 3 } : Box)] ≠ ([] : List Box)) ∧
    totalArea [({ x := 5, y := 5, w := 0, h := 3 } : Box)] = 0 ∧
    viewport_tracker.calculate_region_of_interest
        [({ x := 5, y := 5, w := 0, h := 3 } : Box)] (7, 9) =
      .error .zeroDivisionError ∧
    viewport_tracker_kalman.calculate_region_of_interest
        [({ x := 5, y := 5, w := 0, h := 3 } : Box)] (7, 9) =
      .error .zeroDivisionError := by
  have h := C3_degenerate_amended [({ x := 5, y := 5, w := 0, h := 3 } : Box)] (7, 9)
    (by decide) (by decide)
  exact ⟨by decide, by decide, h.1, h.2⟩

